import Mathlib

/-!
Verification of the disc-checker report-parsing and acquisition pipeline
(`addon/globalPlugins/diskHealthChecker.py`), shallowly embedded in Lean.

Modelling conventions:
* Python strings are modelled as Lean `String` / `List Char`; the character
  classes of the module's regexes (`\d`, `\s`, `\w`, `[A-Za-z]`) are modelled
  over their ASCII meaning, which is what the external tool's reports use.
* Each compiled regex of the source is modelled by a dedicated search/match
  function whose behaviour reproduces the leftmost-match-with-backtracking
  semantics of Python `re` for that particular pattern (the derivations are
  noted next to each function).
* Python floats are modelled as exact rationals; theorems that depend on
  float arithmetic are stated only on inputs where IEEE double arithmetic
  is exact (integral values with results below 2^53).
* I/O (process launching, clipboard, files) is abstracted into explicit
  environment records; exceptions become `Except` values.
-/

namespace DiskHealth

/-! ### Python string primitives -/

/-- Python `\s` (which coincides with `str.isspace` and the default
`str.strip` character set): the full Unicode whitespace set of CPython,
written by code point: tab..carriage-return (9..13), the information
separators and space (28..32), next line (133), and the Unicode spaces
U+00A0, U+1680, U+2000..U+200A, U+2028, U+2029, U+202F, U+205F, U+3000. -/
def pyWs (c : Char) : Bool :=
  (9 ≤ c.toNat && c.toNat ≤ 13) || (28 ≤ c.toNat && c.toNat ≤ 32) ||
  c.toNat = 133 || c.toNat = 160 || c.toNat = 5760 ||
  (8192 ≤ c.toNat && c.toNat ≤ 8202) || c.toNat = 8232 || c.toNat = 8233 ||
  c.toNat = 8239 || c.toNat = 8287 || c.toNat = 12288

/-- Python `\w` word character (for `\b` boundaries), ASCII scope. -/
def isWordChar (c : Char) : Bool :=
  c.isAlpha || c.isDigit || c = '_'

def trimLeft (l : List Char) : List Char := l.dropWhile pyWs

def trimRight (l : List Char) : List Char := (l.reverse.dropWhile pyWs).reverse

def pyStripL (l : List Char) : List Char := trimRight (trimLeft l)

/-- Python `str.strip()`. -/
def pyStrip (s : String) : String := String.mk (pyStripL s.data)

/-- Python `str.rstrip()`. -/
def pyRstrip (s : String) : String := String.mk (trimRight s.data)

/-- Python `str.lower()` (ASCII scope). -/
def pyLower (s : String) : String := String.mk (s.data.map Char.toLower)

/-- Python `str.upper()` (ASCII scope). -/
def pyUpper (s : String) : String := String.mk (s.data.map Char.toUpper)

/-- Python substring containment `sub in hay`. -/
def containsSub (hay sub : List Char) : Bool :=
  match hay with
  | [] => sub.isEmpty
  | c :: t => sub.isPrefixOf (c :: t) || containsSub t sub

/-- Line-break characters recognised by Python `str.splitlines`. -/
def lineBreakChar (c : Char) : Bool :=
  c = '\n' || c = '\r' || c = '\x0b' || c = '\x0c' ||
  c = '\x1c' || c = '\x1d' || c = '\x1e' || c = '\x85' || c = '\u2028' || c = '\u2029'

def splitlinesGo : List Char → List Char → List (List Char)
  | [], cur => if cur.isEmpty then [] else [cur]
  | '\r' :: '\n' :: rest, cur => cur :: splitlinesGo rest []
  | c :: rest, cur =>
    if lineBreakChar c then cur :: splitlinesGo rest []
    else splitlinesGo rest (cur ++ [c])

/-- Python `str.splitlines()`. -/
def pySplitlines (s : String) : List String :=
  (splitlinesGo s.data []).map String.mk

/-- Numeric value of a list of ASCII digits. -/
def digitsToNat (l : List Char) : Nat :=
  l.foldl (fun acc c => acc * 10 + (c.toNat - '0'.toNat)) 0

/-! ### `_to_int` (Python `int()` literal syntax plus `_INT_RE` fallback) -/

/-- Tail of a Python integer literal: digits with single interior underscores. -/
def intTail : List Char → Bool
  | [] => true
  | c :: rest =>
    if c = '_' then
      match rest with
      | d :: _ => d.isDigit && intTail rest
      | [] => false
    else c.isDigit && intTail rest

def intDigitsOk (l : List Char) : Bool :=
  match l with
  | [] => false
  | c :: _ => c.isDigit && intTail l

def intValU (l : List Char) : Int :=
  (digitsToNat (l.filter fun c => c ≠ '_') : Int)

/-- Python `int(text)` on an already-stripped string. -/
def pyIntLit (l : List Char) : Option Int :=
  match l with
  | '+' :: rest => if intDigitsOk rest then some (intValU rest) else none
  | '-' :: rest => if intDigitsOk rest then some (-(intValU rest)) else none
  | _ => if intDigitsOk l then some (intValU l) else none

/-- Leftmost match of `_INT_RE = -?\d+`, returning its integer value. -/
def intSearch : List Char → Option Int
  | [] => none
  | '-' :: rest =>
    (match rest with
     | d :: _ =>
       if d.isDigit then some (-(digitsToNat (rest.takeWhile Char.isDigit) : Int))
       else intSearch rest
     | [] => none)
  | c :: rest =>
    if c.isDigit then some ((digitsToNat ((c :: rest).takeWhile Char.isDigit) : Int))
    else intSearch rest

/-- The source's `_to_int` restricted to string input (the only shape the
parsing pipeline feeds it): strip, try `int(...)`, else first `-?\d+`. -/
def pyToInt (s : String) : Option Int :=
  let text := pyStripL s.data
  if text.isEmpty then none
  else
    match pyIntLit text with
    | some n => some n
    | none => intSearch text

/-- `_to_int` applied to an optional string (`_to_int(None) = None`). -/
def pyToIntOpt : Option String → Option Int
  | none => none
  | some s => pyToInt s

/-! ### `_to_float` (`_FLOAT_RE = -?\d+(?:[.,]\d+)?`, exact-rational model) -/

/-- Value of a `\d+(?:[.,]\d+)?` match starting at the head of `l`
(`none` when the head is not a digit). -/
def floatAt (l : List Char) : Option ℚ :=
  let ds := l.takeWhile Char.isDigit
  if ds.isEmpty then none
  else
    let rest := l.drop ds.length
    let fs :=
      match rest with
      | p :: r => if p = '.' || p = ',' then r.takeWhile Char.isDigit else []
      | [] => []
    some ((digitsToNat ds : ℚ) + (digitsToNat fs : ℚ) / (10 : ℚ) ^ fs.length)

/-- Leftmost match of `_FLOAT_RE`, as an exact rational.  The source converts
the matched text with `float(...)`; double rounding is not modelled, so
theorems use this only where the double result is exact. -/
def floatSearch : List Char → Option ℚ
  | [] => none
  | '-' :: rest =>
    (match floatAt rest with
     | some v => some (-v)
     | none => floatSearch rest)
  | c :: rest =>
    if c.isDigit then floatAt (c :: rest)
    else floatSearch rest

/-- The source's `_to_float` restricted to string input. -/
def pyToFloat (s : String) : Option ℚ :=
  let text := pyStripL s.data
  if text.isEmpty then none else floatSearch text

/-! ### `_PERCENT_RE = (\d{1,3})\s*%`

At a given start position the `\d{1,3}` group backtracks from three digits
down to one; any non-maximal digit count leaves a digit as the next
character, which can satisfy neither `\s*` nor `%`, so a position matches
exactly when its maximal digit run has length 1..3 and is followed by
optional whitespace and `%`.  The group is that digit run. -/

def percentAt (l : List Char) : Option (List Char) :=
  let ds := l.takeWhile Char.isDigit
  if ds.isEmpty || decide (ds.length > 3) then none
  else
    match (l.drop ds.length).dropWhile pyWs with
    | '%' :: _ => some ds
    | _ => none

def percentSearch : List Char → Option (List Char)
  | [] => none
  | c :: rest => percentAt (c :: rest) <|> percentSearch rest

/-! ### `_SIZE_RE = ([0-9][0-9\s.,]*)\s*(B|KB|MB|GB|TB|PB)\b` (IGNORECASE)

Group 1 must start with a digit; its class contains every `\s` character,
so after the maximal class run the following `\s*` is empty and the unit
alternation is tried right there, in the pattern's order `B,KB,MB,GB,TB,PB`.
Backtracking group 1 to a shorter length either lands the unit on a
non-letter class character (digit, dot, comma — never a unit letter) or
skips whitespace back to the very same position, so only the maximal class
run can produce a match at a given start position. -/

def sizeClassChar (c : Char) : Bool :=
  c.isDigit || pyWs c || c = '.' || c = ','

/-- Case-insensitive prefix test (pattern given in upper case). -/
def ciBegins : List Char → List Char → Bool
  | [], _ => true
  | _ :: _, [] => false
  | u :: us, c :: cs => (c.toUpper = u) && ciBegins us cs

/-- The unit alternation with its `\b` boundary, tried in pattern order. -/
def unitAt (l : List Char) : Option String :=
  ["B", "KB", "MB", "GB", "TB", "PB"].find? fun u =>
    ciBegins u.data l &&
      (match l.drop u.length with
       | [] => true
       | c :: _ => !isWordChar c)

def sizeAt (l : List Char) : Option (List Char × String) :=
  let run := l.takeWhile sizeClassChar
  match unitAt (l.drop run.length) with
  | some u => some (run, u)
  | none => none

def sizeSearch : List Char → Option (List Char × String)
  | [] => none
  | c :: rest =>
    (if c.isDigit then sizeAt (c :: rest) else none) <|> sizeSearch rest

/-! ### `_TEMP_RE = (-?\d+)\s*C\b` (IGNORECASE)

`\d+` backtracking to fewer digits leaves a digit next, which fails both
`\s*`-then-`C` and `C`, so only the maximal digit run matters; `-?` at a
`-` character succeeds only when a digit follows. The group includes the
sign. -/

def tempAt (l : List Char) (neg : Bool) : Option (List Char) :=
  let ds := l.takeWhile Char.isDigit
  if ds.isEmpty then none
  else
    match (l.drop ds.length).dropWhile pyWs with
    | c :: rest2 =>
      if (c = 'C' || c = 'c') &&
         (match rest2 with | [] => true | d :: _ => !isWordChar d)
      then some (if neg then '-' :: ds else ds) else none
    | [] => none

def tempSearch : List Char → Option (List Char)
  | [] => none
  | '-' :: rest => tempAt rest true <|> tempSearch rest
  | c :: rest => (if c.isDigit then tempAt (c :: rest) false else none) <|> tempSearch rest

/-! ### `_RPM_RE = (\d+)\s*RPM` (IGNORECASE) — same backtracking argument. -/

def rpmAt (l : List Char) : Option (List Char) :=
  let ds := l.takeWhile Char.isDigit
  if ds.isEmpty then none
  else
    if ciBegins ['R', 'P', 'M'] ((l.drop ds.length).dropWhile pyWs)
    then some ds else none

def rpmSearch : List Char → Option (List Char)
  | [] => none
  | c :: rest => (if c.isDigit then rpmAt (c :: rest) else none) <|> rpmSearch rest

/-! ### `_DISK_HEADER_RE.match`: `^\s*\((\d{1,3})\)\s+(.+?)\s*$`

Anchored at the start.  After `(digits)` the remainder `r` must begin with
a whitespace character and have at least two characters (`\s+` then a
non-empty lazy group); the group, after the source's `.strip()`, equals
`r` with surrounding whitespace removed. -/

def headerMatch (l : List Char) : Option (List Char × List Char) :=
  match trimLeft l with
  | '(' :: rest =>
    let ds := rest.takeWhile Char.isDigit
    if ds.isEmpty || decide (ds.length > 3) then none
    else
      match rest.drop ds.length with
      | ')' :: r =>
        (match r with
         | c :: _ :: _ => if pyWs c then some (ds, pyStripL r) else none
         | _ => none)
      | _ => none
  | _ => none

/-! ### `_DISK_LIST_ENTRY_RE.match`: `^\s*\(\d{1,3}\)\s+.+?:\s+`

An unanchored-end prefix match: after `(digits)` the remainder `r` must
start with whitespace and contain, at some index `i ≥ 2`, a colon followed
immediately by a whitespace character (the `\s+` takes one leading
whitespace character and the lazy `.+?` supplies the `≥ 1` gap). -/

def hasColonWs : List Char → Bool
  | ':' :: c :: rest => pyWs c || hasColonWs (c :: rest)
  | _ :: rest => hasColonWs rest
  | [] => false

def selectorTail (r : List Char) : Bool :=
  match r with
  | c :: _ :: _ => pyWs c && hasColonWs (r.drop 2)
  | _ => false

def selectorMatch (l : List Char) : Bool :=
  match trimLeft l with
  | '(' :: rest =>
    let ds := rest.takeWhile Char.isDigit
    if ds.isEmpty || decide (ds.length > 3) then false
    else
      match rest.drop ds.length with
      | ')' :: r => selectorTail r
      | _ => false
  | _ => false

/-! ### `_KEY_VALUE_RE.match`: `^\s*([A-Za-z][A-Za-z0-9 #/_().+-]{1,60})\s*:\s*(.+?)\s*$`

The key class contains the space but no other whitespace and not `:`, so
after the maximal class run (capped at 60 after the leading letter) the
match succeeds exactly when skipping whitespace reaches a `:`; shortening
the group either fails on a non-space class character or skips to the same
colon.  The returned key/value are the stripped groups; a line whose
post-colon remainder is empty or all-whitespace yields an empty value,
which — like a failed match — adds nothing in `_parse_section_properties`
(the source lines it is applied to are right-stripped, so the two cases
coincide there). -/

def kClass (c : Char) : Bool :=
  c.isAlpha || c.isDigit || c = ' ' || c = '#' || c = '/' || c = '_' ||
  c = '(' || c = ')' || c = '.' || c = '+' || c = '-'

def kvMatch (l : List Char) : Option (List Char × List Char) :=
  match trimLeft l with
  | c :: rest =>
    if c.isAlpha then
      let run := rest.takeWhile kClass
      let n := min run.length 60
      if n = 0 then none
      else
        match (rest.drop n).dropWhile pyWs with
        | ':' :: r => some (pyStripL (c :: rest.take n), pyStripL r)
        | _ => none
    else none
  | [] => none

/-! ### Health-status keyword tables and scalar parsers -/

def _HEALTH_GOOD_KEYWORDS : List String := ["good", "healthy", "ok"]
def _HEALTH_WARN_KEYWORDS : List String := ["caution", "warning", "degraded"]
def _HEALTH_BAD_KEYWORDS : List String := ["bad", "failed", "critical", "error"]

/-- Python `any(keyword in lowered for keyword in kws)`. -/
def containsAny (lowered : String) (kws : List String) : Bool :=
  kws.any fun k => containsSub lowered.data k.data

def _SIZE_MULTIPLIERS : List (String × Nat) :=
  [("B", 1), ("KB", 1000), ("MB", 1000 ^ 2), ("GB", 1000 ^ 3),
   ("TB", 1000 ^ 4), ("PB", 1000 ^ 5)]

/-- `_clamp_percent`. -/
def _clamp_percent : Option Int → Option Int
  | none => none
  | some v => some (max 0 (min 100 v))

/-- `_first_non_empty(*values)`: the first argument that strips to a
non-empty string (stripped), else `""`. -/
def _first_non_empty : List (Option String) → String
  | [] => ""
  | none :: rest => _first_non_empty rest
  | some v :: rest =>
    let t := pyStrip v
    if t ≠ "" then t else _first_non_empty rest

/-- Python truncation `int(q)` (toward zero) on an exact rational. -/
def pyTruncQ (q : ℚ) : Int :=
  if 0 ≤ q then (q.num.toNat / q.den : Nat)
  else -(((-q).num.toNat / (-q).den : Nat) : Int)

/-- `_parse_size_bytes` (the source's `str(text or "")` coercion of a `None`
argument to `""` is applied at the call sites via `orEmpty`). -/
def _parse_size_bytes (text : String) : Option Int :=
  let raw := pyStrip text
  if raw.data.isEmpty then none
  else
    match sizeSearch raw.data with
    | none => none
    | some (g1, unit) =>
      match pyToFloat (String.mk g1) with
      | none => none
      | some value =>
        match _SIZE_MULTIPLIERS.lookup (pyUpper unit) with
        | none => none
        | some multiplier => some (pyTruncQ (value * (multiplier : ℚ)))

def orEmpty : Option String → String
  | none => ""
  | some s => s

/-- `_parse_temperature`. -/
def _parse_temperature (value : Option String) : Option Int :=
  let text := pyStrip (orEmpty value)
  if text.data.isEmpty then none
  else
    let temperature :=
      match tempSearch text.data with
      | some g => pyToInt (String.mk g)
      | none => pyToInt text
    match temperature with
    | none => none
    | some t => if -40 ≤ t ∧ t ≤ 150 then some t else none

/-- `_parse_health_percent`. -/
def _parse_health_percent (statusText : String) : Option Int :=
  let text := pyStrip statusText
  if text.data.isEmpty then none
  else
    match percentSearch text.data with
    | some g => _clamp_percent (pyToInt (String.mk g))
    | none =>
      let lowered := pyLower text
      if containsAny lowered _HEALTH_BAD_KEYWORDS then some 0
      else if containsAny lowered _HEALTH_WARN_KEYWORDS then some 50
      else if containsAny lowered _HEALTH_GOOD_KEYWORDS then some 100
      else none

/-- `_parse_health_code` (0 = good, 1 = warning, 2 = bad). -/
def _parse_health_code (statusText : String) (healthPercent : Option Int) : Option Int :=
  let lowered := pyLower (pyStrip statusText)
  if !lowered.data.isEmpty && containsAny lowered _HEALTH_BAD_KEYWORDS then some 2
  else if !lowered.data.isEmpty && containsAny lowered _HEALTH_WARN_KEYWORDS then some 1
  else if !lowered.data.isEmpty && containsAny lowered _HEALTH_GOOD_KEYWORDS then some 0
  else
    match healthPercent with
    | none => none
    | some p => some (if p ≥ 80 then 0 else 1)

/-- `_parse_rotation_rate`. -/
def _parse_rotation_rate (text : String) : Option Int :=
  let raw := pyStrip text
  if raw.data.isEmpty then none
  else
    match rpmSearch raw.data with
    | some g => pyToInt (String.mk g)
    | none => none

/-- The keyword arm of `_infer_media_type`. -/
def mediaKeyword (interfaceText modelName : String) : String :=
  let combined := pyUpper (interfaceText ++ " " ++ modelName)
  if containsSub combined.data "NVME".data ||
     containsSub combined.data "NVM EXPRESS".data ||
     containsSub combined.data "SSD".data then "SSD" else "no data"

/-- `_infer_media_type`. -/
def _infer_media_type (interfaceText rotationText modelName : String) : String :=
  match _parse_rotation_rate rotationText with
  | some rotation =>
    if rotation > 0 then "HDD (" ++ toString rotation ++ " RPM)"
    else mediaKeyword interfaceText modelName
  | none => mediaKeyword interfaceText modelName

/-! ### Report sections and records -/

/-- A parsed report section (the dicts built by `_split_disk_sections`). -/
structure DiskSection where
  Number : Option Int
  HeaderName : String
  Lines : List String
deriving DecidableEq, Repr

/-- One normalized disk record (the dict built by
`_build_entry_from_section`; `_healthCode` is `healthCode` here, and the
constant `"_source": "crystaldiskinfo"` key is `sourceTag`). -/
structure DiskEntry where
  Number : Option Int
  FriendlyName : String
  SerialNumber : String
  Size : Option Int
  BusType : String
  MediaType : String
  HealthStatus : String
  HealthPercent : Option Int
  Temperature : Option Int
  Wear : Option Int
  PowerOnHours : Option Int
  CdiProperties : List (String × String)
  healthCode : Option Int
  sourceTag : String
deriving DecidableEq, Repr

/-- One line's step of `_parse_section_properties`'s loop. -/
def kvStep (acc : List (String × String) × List (String × String)) (line : String) :
    List (String × String) × List (String × String) :=
  match kvMatch line.data with
  | none => acc
  | some (kd, v) =>
    let keyDisplay := String.mk kd
    let key := pyLower keyDisplay
    let value := String.mk v
    if key ≠ "" ∧ value ≠ "" ∧ acc.1.lookup key = none then
      (acc.1 ++ [(key, value)], acc.2 ++ [(keyDisplay, value)])
    else acc

/-- `_parse_section_properties`: first component is the `properties`
mapping (first occurrence of each lower-cased key wins), second the
display-ordered pair list. -/
def _parse_section_properties (lines : List String) : List (String × String) × List (String × String) :=
  lines.foldl kvStep ([], [])

/-- The loop body of `_split_disk_sections`. -/
def splitGo : List String → List DiskSection → Option DiskSection → List DiskSection
  | [], secs, cur =>
    (match cur with
     | none => secs
     | some s => secs ++ [s])
  | rawLine :: rest, secs, cur =>
    let line := pyRstrip rawLine
    if selectorMatch line.data then splitGo rest secs cur
    else
      match headerMatch line.data with
      | some (ds, label) =>
        let secs2 := match cur with | none => secs | some s => secs ++ [s]
        splitGo rest secs2
          (some { Number := pyToInt (String.mk ds), HeaderName := String.mk label, Lines := [] })
      | none =>
        match cur with
        | none => splitGo rest secs cur
        | some s => splitGo rest secs (some { s with Lines := s.Lines ++ [line] })

/-- `_split_disk_sections`. -/
def _split_disk_sections (text : String) : List DiskSection :=
  splitGo (pySplitlines text) [] none

/-- `_build_entry_from_section`. -/
def _build_entry_from_section (sec : DiskSection) : DiskEntry :=
  let pr := _parse_section_properties sec.Lines
  let properties := pr.1
  let ordered := pr.2
  let model_name := _first_non_empty [properties.lookup "model", some sec.HeaderName]
  let serial_number := _first_non_empty [properties.lookup "serial number"]
  let size_bytes := _parse_size_bytes (orEmpty (properties.lookup "disk size"))
  let interface := _first_non_empty [properties.lookup "interface"]
  let rotation := _first_non_empty [properties.lookup "rotation rate"]
  let health_status_raw := _first_non_empty [properties.lookup "health status", some "Unknown"]
  let health_percent := _parse_health_percent health_status_raw
  let health_code := _parse_health_code health_status_raw health_percent
  let temperature := _parse_temperature (properties.lookup "temperature")
  let power_on_hours := pyToIntOpt (properties.lookup "power on hours")
  let media_type := _infer_media_type interface rotation model_name
  let wear := health_percent.map fun hp => max 0 (min 100 (100 - hp))
  { Number := sec.Number
    FriendlyName := model_name
    SerialNumber := serial_number
    Size := size_bytes
    BusType := if interface ≠ "" then interface else "no data"
    MediaType := media_type
    HealthStatus := health_status_raw
    HealthPercent := health_percent
    Temperature := temperature
    Wear := wear
    PowerOnHours := power_on_hours
    CdiProperties := ordered
    healthCode := health_code
    sourceTag := "crystaldiskinfo" }

/-- `_parse_crystaldiskinfo_entries` (the Report Parser's `parseReport`). -/
def _parse_crystaldiskinfo_entries (text : String) : List DiskEntry :=
  ((_split_disk_sections text).map _build_entry_from_section).filter
    fun entry => entry.FriendlyName ≠ ""

/-! ### Health Report Builder -/

/-- `_is_bad_health`. -/
def _is_bad_health (entry : DiskEntry) : Bool :=
  (match entry.HealthPercent with
   | some hp => decide (hp < 80)
   | none => false) ||
  (entry.healthCode = some 1 || entry.healthCode = some 2) ||
  (match entry.Temperature with
   | some t => decide (t ≥ 60)
   | none => false)

/-- The sort key order of `_build_report`:
`key = (number is None, number)` under Python tuple comparison (two `None`
numbers compare equal because `None == None`). -/
def numKeyLe (a b : Option Int) : Prop :=
  match a, b with
  | some x, some y => x ≤ y
  | some _, none => True
  | none, some _ => False
  | none, none => True

instance : DecidableRel numKeyLe
  | some x, some y => inferInstanceAs (Decidable (x ≤ y))
  | some _, none => isTrue trivial
  | none, some _ => isFalse fun h => h
  | none, none => isTrue trivial

def entryLe (a b : DiskEntry) : Prop := numKeyLe a.Number b.Number

instance : DecidableRel entryLe := fun a b =>
  inferInstanceAs (Decidable (numKeyLe a.Number b.Number))

/-- The record order rendered by `_build_report`.  Python `sorted` is the
stable ascending sort by the key above; `List.insertionSort` with the
non-strict total preorder `entryLe` produces the same (unique) stable
ascending arrangement. -/
def reportOrder (entries : List DiskEntry) : List DiskEntry :=
  List.insertionSort entryLe entries

/-- `_to_display_value` on a string value. -/
def displayStr (value : String) (fallback : String) : String :=
  let t := pyStrip value
  if t ≠ "" then t else fallback

/-- One record's rendered block in `_build_report`'s details. -/
def entryBlock (entry : DiskEntry) : String :=
  let alert := _is_bad_health entry
  let number := match entry.Number with | none => "?" | some n => toString n
  let name := displayStr entry.FriendlyName "no data"
  let healthText :=
    match entry.HealthPercent with
    | some hp => toString hp ++ "%"
    | none => "no data"
  let temperatureText :=
    match entry.Temperature with
    | some t => toString t ++ " C"
    | none => "no data"
  let stateLabel := if alert then "ALERT" else "OK"
  let parts :=
    ["[" ++ stateLabel ++ "] Disk " ++ number ++ ": " ++ name,
     "  Health: " ++ healthText,
     "  Temperature: " ++ temperatureText] ++
    entry.CdiProperties.filterMap fun kv =>
      let k := pyStrip kv.1
      let v := pyStrip kv.2
      if k ≠ "" ∧ v ≠ "" then some ("  " ++ k ++ ": " ++ v) else none
  String.intercalate "\n" parts

structure Report where
  summary : String
  details : String
deriving DecidableEq, Repr

/-- `_build_report`. -/
def _build_report (entries : List DiskEntry) : Report :=
  if entries.isEmpty then
    { summary := "No physical disks were detected."
      details := "Windows did not return any physical disks." }
  else
    let sorted := reportOrder entries
    let warnings := (sorted.filter fun e => _is_bad_health e).length
    let healthy := entries.length - warnings
    { summary :=
        "Disks: " ++ toString entries.length ++ ". Healthy: " ++ toString healthy ++
        ". Alerts: " ++ toString warnings ++ "."
      details := String.intercalate "\n\n" (sorted.map entryBlock) }

/-! ### Acquisition orchestration (`_run_crystaldiskinfo_dump`,
`_collect_disk_entries`)

The launch strategies and the two output channels perform I/O; they are
abstracted into an environment: `launch` gives each strategy's outcome
(the `PermissionError` raised on a cancelled UAC prompt, any other launch
exception with its message, or a process exit code), and `waitOutput`
gives the result of `_wait_for_crystaldiskinfo_output` for a strategy and
its wait budget (this also absorbs the output-file/clipboard baselines and
the clipboard-baseline refresh between strategies). -/

inductive LaunchOutcome where
  | cancelled : LaunchOutcome
  | raised : String → LaunchOutcome
  | exited : Int → LaunchOutcome
deriving DecidableEq, Repr

structure DumpEnv where
  launch : String → LaunchOutcome
  waitOutput : String → ℚ → Option String

inductive DumpError where
  | cancelled : DumpError
  | noReadableOutput : List String → DumpError
deriving DecidableEq, Repr

def _LAUNCH_METHOD_NAMES : List String :=
  ["vbs-hidden", "scheduled-task-hidden", "direct-elevated"]

/-- The strategy loop of `_run_crystaldiskinfo_dump`, with its
`launch_issues` accumulator.  A `PermissionError` re-raises immediately;
any other launch exception records a note and skips polling; otherwise a
nonzero exit records a note and polling proceeds regardless, with a
10-second budget for the two hidden strategies and 25 seconds for the
direct one; the first strategy whose polling yields text returns it. -/
def runMethods : List String → List String → DumpEnv → Except DumpError (String × List String)
  | [], issues, _ => Except.error (DumpError.noReadableOutput issues)
  | name :: rest, issues, env =>
    match env.launch name with
    | LaunchOutcome.cancelled => Except.error DumpError.cancelled
    | LaunchOutcome.raised msg =>
      runMethods rest (issues ++ [name ++ ": launch failed (" ++ msg ++ ")"]) env
    | LaunchOutcome.exited exitCode =>
      let issues1 :=
        if exitCode ≠ 0 then issues ++ [name ++ ": exit code " ++ toString exitCode]
        else issues
      let waitTime : ℚ := if name ≠ "direct-elevated" then 10 else 25
      match env.waitOutput name waitTime with
      | some outputText => Except.ok (outputText, issues1)
      | none => runMethods rest (issues1 ++ [name ++ ": no CrystalDiskInfo output"]) env

/-- `_run_crystaldiskinfo_dump`: returns the first obtained report text
together with the accumulated diagnostic notes, or a terminal error. -/
def _run_crystaldiskinfo_dump (env : DumpEnv) : Except DumpError (String × List String) :=
  runMethods _LAUNCH_METHOD_NAMES [] env

/-- Environment for `_collect_disk_entries`: the three dependency checks
plus the dump environment. -/
structure CollectEnv where
  exeFound : Bool
  cdiResourceDir : Bool
  smartDir : Bool
  dumpEnv : DumpEnv

/-- `_collect_disk_entries`.  Errors are the `str()` of the `RuntimeError`
raised on each path; the dump's own terminal `RuntimeError` is wrapped by
the generic `except Exception` arm (the `TimeoutError` arm is unreachable
from `_run_crystaldiskinfo_dump`, which catches strategy timeouts in its
loop). -/
def _collect_disk_entries (env : CollectEnv) : Except String (List DiskEntry) :=
  if !env.exeFound then
    Except.error "CrystalDiskInfo executable was not found in the add-on package."
  else if !env.cdiResourceDir then
    Except.error "CrystalDiskInfo CdiResource directory is missing."
  else if !env.smartDir then
    Except.error "CrystalDiskInfo Smart directory is missing."
  else
    match _run_crystaldiskinfo_dump env.dumpEnv with
    | Except.error DumpError.cancelled => Except.error "UAC cancelled by user"
    | Except.error (DumpError.noReadableOutput _) =>
      Except.error "CrystalDiskInfo failed: CrystalDiskInfo did not produce readable output."
    | Except.ok (outputText, _) =>
      let entries := _parse_crystaldiskinfo_entries outputText
      if entries.isEmpty then
        Except.error "CrystalDiskInfo did not return readable disk data."
      else Except.ok entries

/-! ### Helper lemmas -/

lemma isDigit_toNat {c : Char} (h : c.isDigit = true) :
    48 ≤ c.toNat ∧ c.toNat ≤ 57 := by
  unfold Char.isDigit at h
  simp only [Bool.and_eq_true, decide_eq_true_eq] at h
  exact ⟨h.1, h.2⟩

lemma isDigit_not_pyWs {c : Char} (h : c.isDigit = true) : pyWs c = false := by
  have hb := isDigit_toNat h
  cases hw : pyWs c with
  | false => rfl
  | true =>
    exfalso
    unfold pyWs at hw
    simp only [Bool.or_eq_true, decide_eq_true_eq, Bool.and_eq_true] at hw
    omega

lemma pyWs_not_isDigit {c : Char} (h : pyWs c = true) : c.isDigit = false := by
  cases hd : c.isDigit with
  | false => rfl
  | true => rw [isDigit_not_pyWs hd] at h; exact absurd h (by simp)

lemma dropWhile_eq_self_of {p : Char → Bool} {l : List Char}
    (h : ∀ c ∈ l, p c = false) : l.dropWhile p = l := by
  cases l with
  | nil => rfl
  | cons c t => simp [List.dropWhile_cons, h c (by simp)]

lemma pyStripL_eq_self {l : List Char} (h : ∀ c ∈ l, pyWs c = false) :
    pyStripL l = l := by
  unfold pyStripL trimLeft trimRight
  rw [dropWhile_eq_self_of h, dropWhile_eq_self_of (fun c hc => h c (by
    simpa using hc)), List.reverse_reverse]

lemma intTail_digits {l : List Char} (h : ∀ c ∈ l, c.isDigit = true) :
    intTail l = true := by
  induction l with
  | nil => rfl
  | cons c t ih =>
    have hc : c.isDigit = true := h c (by simp)
    have hu : ¬ c = '_' := by
      rintro rfl; exact absurd hc (by decide)
    rw [intTail.eq_def]
    simp only [if_neg hu, hc, Bool.true_and]
    exact ih fun d hd => h d (by simp [hd])

lemma pyToInt_digits {g : List Char} (hne : g ≠ []) (hd : ∀ c ∈ g, c.isDigit = true) :
    pyToInt (String.mk g) = some ((digitsToNat g : Int)) := by
  have hnw : ∀ c ∈ g, pyWs c = false := fun c hc => isDigit_not_pyWs (hd c hc)
  have hstrip : pyStripL (String.mk g).data = g := pyStripL_eq_self hnw
  have hok : intDigitsOk g = true := by
    cases g with
    | nil => exact absurd rfl hne
    | cons c t =>
      rw [intDigitsOk.eq_def]
      simp only [hd c (by simp), intTail_digits hd, Bool.and_self]
  have hfilter : g.filter (fun c => decide (c ≠ '_')) = g := by
    refine List.filter_eq_self.mpr fun c hc => ?_
    have hcd : c.isDigit = true := hd c hc
    simp only [ne_eq, decide_eq_true_eq]
    rintro rfl; exact absurd hcd (by decide)
  have hlit : pyIntLit g = some (intValU g) := by
    rw [pyIntLit.eq_def]
    split
    · exact absurd (hd '+' (by simp)) (by decide)
    · exact absurd (hd '-' (by simp)) (by decide)
    · rw [hok]; rfl
  have hemp : g.isEmpty = false := by
    cases g with
    | nil => exact absurd rfl hne
    | cons c t => rfl
  unfold pyToInt
  simp only [hstrip, hemp, Bool.false_eq_true, if_false, hlit]
  unfold intValU
  rw [hfilter]

lemma percentAt_digits {l g : List Char} (h : percentAt l = some g) :
    g ≠ [] ∧ (∀ c ∈ g, c.isDigit = true) ∧ g.length ≤ 3 := by
  simp only [percentAt] at h
  split at h
  · exact absurd h (by simp)
  · rename_i hcond
    split at h
    · cases h
      simp only [Bool.or_eq_true, List.isEmpty_iff, decide_eq_true_eq, not_or] at hcond
      push_neg at hcond
      exact ⟨hcond.1, fun c hc => List.mem_takeWhile_imp hc, by omega⟩
    · exact absurd h (by simp)

lemma percentSearch_digits {l g : List Char} (h : percentSearch l = some g) :
    g ≠ [] ∧ (∀ c ∈ g, c.isDigit = true) ∧ g.length ≤ 3 := by
  induction l with
  | nil => exact absurd h (by simp [percentSearch])
  | cons c t ih =>
    rw [percentSearch] at h
    rcases hp : percentAt (c :: t) with _ | g'
    · rw [hp] at h
      simp only [Option.none_orElse] at h
      exact ih h
    · rw [hp] at h
      simp only [Option.some_orElse] at h
      cases h
      exact percentAt_digits hp

/-- Health percentages produced by `_parse_health_percent` lie in `[0, 100]`. -/
lemma parse_health_percent_range {s : String} {v : Int}
    (h : _parse_health_percent s = some v) : 0 ≤ v ∧ v ≤ 100 := by
  unfold _parse_health_percent at h
  simp only at h
  split at h
  · exact absurd h (by simp)
  · split at h
    · rename_i g hg
      unfold _clamp_percent at h
      rcases hi : pyToInt (String.mk g) with _ | w
      · rw [hi] at h; exact absurd h (by simp)
      · rw [hi] at h
        cases h
        constructor <;> omega
    · split at h
      · cases h; omega
      · split at h
        · cases h; omega
        · split at h
          · cases h; omega
          · exact absurd h (by simp)

/-- Temperatures produced by `_parse_temperature` lie in `[-40, 150]`. -/
lemma parse_temperature_range {v : Option String} {t : Int}
    (h : _parse_temperature v = some t) : -40 ≤ t ∧ t ≤ 150 := by
  unfold _parse_temperature at h
  simp only at h
  split at h
  · exact absurd h (by simp)
  · split at h
    · exact absurd h (by simp)
    · rename_i t0 ht0
      split at h
      · cases h; assumption
      · exact absurd h (by simp)

/-- When the stripped status text contains no percent match,
`_parse_health_percent` is the keyword cascade. -/
lemma parse_health_percent_keyword (s : String)
    (hnone : percentSearch (pyStrip s).data = none) :
    _parse_health_percent s =
      (if containsAny (pyLower (pyStrip s)) _HEALTH_BAD_KEYWORDS = true then some 0
       else if containsAny (pyLower (pyStrip s)) _HEALTH_WARN_KEYWORDS = true then some 50
       else if containsAny (pyLower (pyStrip s)) _HEALTH_GOOD_KEYWORDS = true then some 100
       else none) := by
  unfold _parse_health_percent
  by_cases hemp : (pyStrip s).data.isEmpty = true
  · have hdata : (pyStrip s).data = [] := List.isEmpty_iff.mp hemp
    have hlow : pyLower (pyStrip s) = "" := by
      unfold pyLower
      rw [hdata]
      rfl
    rw [hlow]
    simp only [hemp, if_true]
    have hb : containsAny "" _HEALTH_BAD_KEYWORDS = false := by decide
    have hw : containsAny "" _HEALTH_WARN_KEYWORDS = false := by decide
    have hg : containsAny "" _HEALTH_GOOD_KEYWORDS = false := by decide
    simp [hb, hw, hg]
  · simp only [Bool.not_eq_true] at hemp
    simp [hemp, hnone]

/-! ### Claim theorems -/

/-- Claim C5: for every status text, `_parse_health_percent` returns the
embedded percentage clamped to `[0, 100]` whenever a `NN%` pattern is
present (the percent match takes precedence over keyword inference, e.g.
"Caution (45%)" gives 45, not 50); otherwise it returns 0 on any bad
keyword (bad/failed/critical/error), else 50 on any warn keyword
(caution/warning/degraded), else 100 on any good keyword
(good/healthy/ok), matching case-insensitively as substrings with bad
checked before warn before good; otherwise `none`. -/
theorem c5_parse_health_percent (s : String) :
    (∀ g, percentSearch (pyStrip s).data = some g →
      _parse_health_percent s = some (max 0 (min 100 ((digitsToNat g : Nat) : Int)))) ∧
    (percentSearch (pyStrip s).data = none →
      _parse_health_percent s =
        (if containsAny (pyLower (pyStrip s)) _HEALTH_BAD_KEYWORDS = true then some 0
         else if containsAny (pyLower (pyStrip s)) _HEALTH_WARN_KEYWORDS = true then some 50
         else if containsAny (pyLower (pyStrip s)) _HEALTH_GOOD_KEYWORDS = true then some 100
         else none)) ∧
    _parse_health_percent "Caution (45%)" = some 45 ∧
    _parse_health_percent "Status 120%" = some 100 ∧
    _parse_health_percent "CAUTION" = some 50 ∧
    _parse_health_percent "good failed caution" = some 0 ∧
    _parse_health_percent "It is Good" = some 100 ∧
    _parse_health_percent "hdd" = none := by
  refine ⟨?_, parse_health_percent_keyword s, by decide, by decide, by decide,
    by decide, by decide, by decide⟩
  intro g hg
  obtain ⟨hne, hd, hlen⟩ := percentSearch_digits hg
  have hemp : (pyStrip s).data.isEmpty = false := by
    cases hm : (pyStrip s).data with
    | nil => rw [hm] at hg; exact absurd hg (by simp [percentSearch])
    | cons a t => rfl
  unfold _parse_health_percent
  simp only [hemp, Bool.false_eq_true, if_false, hg, pyToInt_digits hne hd]
  rfl

/-- Claim C5 witness: the percent branch and the keyword branch of the
theorem applied at concrete inputs. -/
theorem c5_parse_health_percent_witness :
    _parse_health_percent "Good (93%)" =
      some (max 0 (min 100 ((digitsToNat ['9', '3'] : Nat) : Int))) ∧
    _parse_health_percent "degraded" =
      (if containsAny (pyLower (pyStrip "degraded")) _HEALTH_BAD_KEYWORDS = true then some 0
       else if containsAny (pyLower (pyStrip "degraded")) _HEALTH_WARN_KEYWORDS = true then some 50
       else if containsAny (pyLower (pyStrip "degraded")) _HEALTH_GOOD_KEYWORDS = true then some 100
       else none) :=
  ⟨(c5_parse_health_percent "Good (93%)").1 ['9', '3'] (by decide),
   (c5_parse_health_percent "degraded").2.1 (by decide)⟩

/-- Claim C7: `_infer_media_type` returns `"HDD (<rpm> RPM)"` whenever
the rotation text parses to a positive rotation rate, regardless of
interface and model text; otherwise it returns `"SSD"` exactly when the
upper-cased concatenation of interface and model contains "NVME",
"NVM EXPRESS" or "SSD", and `"no data"` otherwise — in particular
"7200RPM" gives "HDD (7200 RPM)", interface "NVM Express" with zero or
absent rotation gives "SSD", and no signal gives "no data". -/
theorem c7_infer_media_type (i r m : String) :
    (∀ n : Int, _parse_rotation_rate r = some n → 0 < n →
      _infer_media_type i r m = "HDD (" ++ toString n ++ " RPM)") ∧
    (∀ n : Int, _parse_rotation_rate r = some n → n ≤ 0 →
      _infer_media_type i r m =
        (if containsSub (pyUpper (i ++ " " ++ m)).data "NVME".data = true ∨
            containsSub (pyUpper (i ++ " " ++ m)).data "NVM EXPRESS".data = true ∨
            containsSub (pyUpper (i ++ " " ++ m)).data "SSD".data = true
         then "SSD" else "no data")) ∧
    (_parse_rotation_rate r = none →
      _infer_media_type i r m =
        (if containsSub (pyUpper (i ++ " " ++ m)).data "NVME".data = true ∨
            containsSub (pyUpper (i ++ " " ++ m)).data "NVM EXPRESS".data = true ∨
            containsSub (pyUpper (i ++ " " ++ m)).data "SSD".data = true
         then "SSD" else "no data")) ∧
    _infer_media_type "Any old bus with SSD text" "7200RPM" "Samsung SSD" = "HDD (7200 RPM)" ∧
    _infer_media_type "NVM Express" "" "Foo" = "SSD" ∧
    _infer_media_type "NVM Express" "0 RPM" "Foo" = "SSD" ∧
    _infer_media_type "" "" "Crucial ssd unit" = "SSD" ∧
    _infer_media_type "Serial ATA" "" "Plain disk" = "no data" := by
  have hkw : mediaKeyword i m =
      (if containsSub (pyUpper (i ++ " " ++ m)).data "NVME".data = true ∨
          containsSub (pyUpper (i ++ " " ++ m)).data "NVM EXPRESS".data = true ∨
          containsSub (pyUpper (i ++ " " ++ m)).data "SSD".data = true
       then "SSD" else "no data") := by
    unfold mediaKeyword
    by_cases h1 : containsSub (pyUpper (i ++ " " ++ m)).data "NVME".data = true <;>
      by_cases h2 : containsSub (pyUpper (i ++ " " ++ m)).data "NVM EXPRESS".data = true <;>
        by_cases h3 : containsSub (pyUpper (i ++ " " ++ m)).data "SSD".data = true <;>
          simp [h1, h2, h3]
  refine ⟨?_, ?_, ?_, by decide, by decide, by decide, by decide, by decide⟩
  · intro n hn hpos
    unfold _infer_media_type
    rw [hn]
    simp [hpos]
  · intro n hn hle
    unfold _infer_media_type
    rw [hn]
    have : ¬ (n > 0) := by omega
    simp only [this, if_false]
    exact hkw
  · intro hn
    unfold _infer_media_type
    rw [hn]
    exact hkw

/-- Claim C7 witness: the three branches of the theorem at concrete
inputs. -/
theorem c7_infer_media_type_witness :
    _infer_media_type "SATA" "5400 rpm" "WDC" = "HDD (" ++ toString (5400 : Int) ++ " RPM)" ∧
    _infer_media_type "NVM Express" "0RPM" "Foo" =
      (if containsSub (pyUpper ("NVM Express" ++ " " ++ "Foo")).data "NVME".data = true ∨
          containsSub (pyUpper ("NVM Express" ++ " " ++ "Foo")).data "NVM EXPRESS".data = true ∨
          containsSub (pyUpper ("NVM Express" ++ " " ++ "Foo")).data "SSD".data = true
       then "SSD" else "no data") ∧
    _infer_media_type "IDE" "fast" "disk" =
      (if containsSub (pyUpper ("IDE" ++ " " ++ "disk")).data "NVME".data = true ∨
          containsSub (pyUpper ("IDE" ++ " " ++ "disk")).data "NVM EXPRESS".data = true ∨
          containsSub (pyUpper ("IDE" ++ " " ++ "disk")).data "SSD".data = true
       then "SSD" else "no data") :=
  ⟨(c7_infer_media_type "SATA" "5400 rpm" "WDC").1 5400 (by decide) (by decide),
   (c7_infer_media_type "NVM Express" "0RPM" "Foo").2.1 0 (by decide) (by decide),
   (c7_infer_media_type "IDE" "fast" "disk").2.2.1 (by decide)⟩

/-- Claim C9: every record the parser produces satisfies the field
invariants — `HealthPercent`, when present, lies in `[0, 100]`;
`Temperature`, when present, lies in `[-40, 150]` (out-of-range source
values yield `none` rather than being clamped: "200C" is rejected,
"-10C" accepted); and `Wear` is never read from the source text — it
equals `100 - HealthPercent` when that is present and `none` otherwise. -/
theorem c9_record_invariants :
    (∀ text : String, ∀ e ∈ _parse_crystaldiskinfo_entries text,
      (∀ hp, e.HealthPercent = some hp → 0 ≤ hp ∧ hp ≤ 100) ∧
      (∀ t, e.Temperature = some t → -40 ≤ t ∧ t ≤ 150) ∧
      e.Wear = e.HealthPercent.map (fun hp => 100 - hp)) ∧
    _parse_temperature (some "200C") = none ∧
    _parse_temperature (some "-10C") = some (-10) := by
  refine ⟨?_, by decide, by decide⟩
  intro text e he
  simp only [_parse_crystaldiskinfo_entries, List.mem_filter, List.mem_map] at he
  obtain ⟨⟨sec, hsec, rfl⟩, hname⟩ := he
  refine ⟨?_, ?_, ?_⟩
  · intro hp hhp
    simp only [_build_entry_from_section] at hhp
    exact parse_health_percent_range hhp
  · intro t ht
    simp only [_build_entry_from_section] at ht
    exact parse_temperature_range ht
  · simp only [_build_entry_from_section]
    cases hhp : _parse_health_percent
        (_first_non_empty [(_parse_section_properties sec.Lines).1.lookup "health status",
          some "Unknown"]) with
    | none => rfl
    | some v =>
      obtain ⟨h1, h2⟩ := parse_health_percent_range hhp
      have hv : max 0 (min 100 (100 - v)) = 100 - v := by omega
      simp [hv]

/-- Claim C9 witness: the invariants of the theorem at a record parsed
from a concrete one-section report. -/
theorem c9_record_invariants_witness :
    (_build_entry_from_section ⟨some 1, "X", ["Health Status : Good", "Temperature : 38 C"]⟩).Wear =
      (_build_entry_from_section
        ⟨some 1, "X", ["Health Status : Good", "Temperature : 38 C"]⟩).HealthPercent.map
        (fun hp => 100 - hp) :=
  (c9_record_invariants.1 "(1) X\nHealth Status : Good\nTemperature : 38 C"
    (_build_entry_from_section ⟨some 1, "X", ["Health Status : Good", "Temperature : 38 C"]⟩)
    (by decide)).2.2

/-- Claim C10 (implicit): lines preceding the first section-header line
belong to no section and are discarded entirely — dropping any prefix of
non-header lines leaves the split unchanged — and consequently an input
with no header-matching line parses to an empty record list. -/
theorem c10_preheader_lines_discarded :
    (∀ pre rest : List String,
      (∀ l ∈ pre, headerMatch (pyRstrip l).data = none) →
      splitGo (pre ++ rest) [] none = splitGo rest [] none) ∧
    (∀ text : String,
      (∀ l ∈ pySplitlines text, headerMatch (pyRstrip l).data = none) →
      _parse_crystaldiskinfo_entries text = []) ∧
    _parse_crystaldiskinfo_entries "CrystalDiskInfo banner\nModel : X\nno headers here" = [] := by
  have key : ∀ (pre rest : List String),
      (∀ l ∈ pre, headerMatch (pyRstrip l).data = none) →
      splitGo (pre ++ rest) [] none = splitGo rest [] none := by
    intro pre
    induction pre with
    | nil => intro rest _; rfl
    | cons l t ih =>
      intro rest hpre
      have hl : headerMatch (pyRstrip l).data = none := hpre l (by simp)
      have iht := ih rest fun x hx => hpre x (by simp [hx])
      rw [List.cons_append, splitGo, hl]
      by_cases hsel : selectorMatch (pyRstrip l).data = true
      · simp [hsel, iht]
      · simp only [Bool.not_eq_true] at hsel
        simp [hsel, iht]
  refine ⟨key, ?_, by decide⟩
  intro text htext
  have hsplit : _split_disk_sections text = [] := by
    unfold _split_disk_sections
    have := key (pySplitlines text) [] htext
    rw [List.append_nil] at this
    rw [this]
    rfl
  unfold _parse_crystaldiskinfo_entries
  rw [hsplit]
  rfl

/-- Claim C10 witness: both parts of the theorem at concrete inputs. -/
theorem c10_preheader_lines_discarded_witness :
    splitGo (["banner", "Model : X"] ++ ["(1) Disk", "Model : Y"]) [] none =
      splitGo ["(1) Disk", "Model : Y"] [] none ∧
    _parse_crystaldiskinfo_entries "only text\nModel : X\n(1234) not a header" = [] :=
  ⟨c10_preheader_lines_discarded.1 ["banner", "Model : X"] ["(1) Disk", "Model : Y"]
    (by decide),
   c10_preheader_lines_discarded.2.1 "only text\nModel : X\n(1234) not a header"
    (by decide)⟩

/-- Claim C2: a strategy raising the elevation-cancelled condition aborts
the whole acquisition at once — the loop returns the cancelled error for
any strategy position, for every wait oracle (so the output channels are
not polled for that attempt) and independently of all later strategies;
`_collect_disk_entries` surfaces it as "UAC cancelled by user", distinct
from every other terminal failure message. -/
theorem c2_elevation_cancelled_aborts :
    (∀ (name : String) (rest issues : List String) (env : DumpEnv),
      env.launch name = LaunchOutcome.cancelled →
      runMethods (name :: rest) issues env = Except.error DumpError.cancelled) ∧
    (∀ env : CollectEnv, env.exeFound = true → env.cdiResourceDir = true →
      env.smartDir = true →
      env.dumpEnv.launch "vbs-hidden" = LaunchOutcome.cancelled →
      _collect_disk_entries env = Except.error "UAC cancelled by user") ∧
    ("UAC cancelled by user" ≠ "CrystalDiskInfo executable was not found in the add-on package." ∧
     "UAC cancelled by user" ≠ "CrystalDiskInfo CdiResource directory is missing." ∧
     "UAC cancelled by user" ≠ "CrystalDiskInfo Smart directory is missing." ∧
     "UAC cancelled by user" ≠ "CrystalDiskInfo failed: CrystalDiskInfo did not produce readable output." ∧
     "UAC cancelled by user" ≠ "CrystalDiskInfo did not return readable disk data.") := by
  have hloop : ∀ (name : String) (rest issues : List String) (env : DumpEnv),
      env.launch name = LaunchOutcome.cancelled →
      runMethods (name :: rest) issues env = Except.error DumpError.cancelled := by
    intro name rest issues env h
    rw [runMethods, h]
  refine ⟨hloop, ?_, by decide, by decide, by decide, by decide, by decide⟩
  intro env h1 h2 h3 hc
  unfold _collect_disk_entries
  rw [h1, h2, h3]
  have hdump : _run_crystaldiskinfo_dump env.dumpEnv = Except.error DumpError.cancelled := by
    unfold _run_crystaldiskinfo_dump _LAUNCH_METHOD_NAMES
    exact hloop _ _ _ _ hc
  rw [hdump]
  rfl

/-- Claim C2 witness: the theorem applied to a concrete environment whose
first strategy raises elevation-cancelled. -/
theorem c2_elevation_cancelled_aborts_witness :
    _collect_disk_entries
      ⟨true, true, true,
        ⟨fun _ => LaunchOutcome.cancelled, fun _ _ => some "never read"⟩⟩ =
      Except.error "UAC cancelled by user" :=
  c2_elevation_cancelled_aborts.2.1
    ⟨true, true, true, ⟨fun _ => LaunchOutcome.cancelled, fun _ _ => some "never read"⟩⟩
    rfl rfl rfl rfl

/-- Claim C3: the loop tries the strategies in the fixed order vbs-hidden,
scheduled-task-hidden, direct-elevated; a launch exception or a nonzero
exit code never aborts the sequence — after a nonzero exit the channels
are still polled, with a 10-second budget for the first two strategies
and 25 seconds for the direct one — and the first strategy whose polling
yields text wins: when strategies 1 and 2 produce no output and strategy
3 does, the result is parsed from strategy 3's text while strategies 1
and 2 contribute only diagnostic notes. -/
theorem c3_strategy_order_fallback :
    (∀ (env : DumpEnv) (t : String),
      env.launch "vbs-hidden" = LaunchOutcome.exited 0 →
      env.launch "scheduled-task-hidden" = LaunchOutcome.exited 0 →
      env.launch "direct-elevated" = LaunchOutcome.exited 0 →
      env.waitOutput "vbs-hidden" 10 = none →
      env.waitOutput "scheduled-task-hidden" 10 = none →
      env.waitOutput "direct-elevated" 25 = some t →
      _run_crystaldiskinfo_dump env =
        Except.ok (t, ["vbs-hidden: no CrystalDiskInfo output",
                       "scheduled-task-hidden: no CrystalDiskInfo output"])) ∧
    (∀ (env : DumpEnv) (t : String) (c : Int), c ≠ 0 →
      env.launch "vbs-hidden" = LaunchOutcome.exited c →
      env.waitOutput "vbs-hidden" 10 = some t →
      _run_crystaldiskinfo_dump env =
        Except.ok (t, ["vbs-hidden: exit code " ++ toString c])) ∧
    (∀ (env : DumpEnv) (t msg : String),
      env.launch "vbs-hidden" = LaunchOutcome.raised msg →
      env.launch "scheduled-task-hidden" = LaunchOutcome.exited 0 →
      env.waitOutput "scheduled-task-hidden" 10 = some t →
      _run_crystaldiskinfo_dump env =
        Except.ok (t, ["vbs-hidden: launch failed (" ++ msg ++ ")"])) ∧
    (∀ (env : CollectEnv) (t : String),
      env.exeFound = true → env.cdiResourceDir = true → env.smartDir = true →
      env.dumpEnv.launch "vbs-hidden" = LaunchOutcome.exited 0 →
      env.dumpEnv.launch "scheduled-task-hidden" = LaunchOutcome.exited 0 →
      env.dumpEnv.launch "direct-elevated" = LaunchOutcome.exited 0 →
      env.dumpEnv.waitOutput "vbs-hidden" 10 = none →
      env.dumpEnv.waitOutput "scheduled-task-hidden" 10 = none →
      env.dumpEnv.waitOutput "direct-elevated" 25 = some t →
      _parse_crystaldiskinfo_entries t ≠ [] →
      _collect_disk_entries env = Except.ok (_parse_crystaldiskinfo_entries t)) := by
  have hz : ¬ ((0 : Int) ≠ 0) := by omega
  have hn1 : ("vbs-hidden" : String) ≠ "direct-elevated" := by decide
  have hn2 : ("scheduled-task-hidden" : String) ≠ "direct-elevated" := by decide
  have hn3 : ¬ (("direct-elevated" : String) ≠ "direct-elevated") := by decide
  have main : ∀ (env : DumpEnv) (t : String),
      env.launch "vbs-hidden" = LaunchOutcome.exited 0 →
      env.launch "scheduled-task-hidden" = LaunchOutcome.exited 0 →
      env.launch "direct-elevated" = LaunchOutcome.exited 0 →
      env.waitOutput "vbs-hidden" 10 = none →
      env.waitOutput "scheduled-task-hidden" 10 = none →
      env.waitOutput "direct-elevated" 25 = some t →
      _run_crystaldiskinfo_dump env =
        Except.ok (t, ["vbs-hidden: no CrystalDiskInfo output",
                       "scheduled-task-hidden: no CrystalDiskInfo output"]) := by
    intro env t h1 h2 h3 hw1 hw2 hw3
    unfold _run_crystaldiskinfo_dump _LAUNCH_METHOD_NAMES
    simp only [runMethods, h1, h2, h3, if_neg hz, if_pos hn1, if_pos hn2, if_neg hn3,
      hw1, hw2, hw3]
    rfl
  refine ⟨main, ?_, ?_, ?_⟩
  · intro env t c hc h1 hw1
    unfold _run_crystaldiskinfo_dump _LAUNCH_METHOD_NAMES
    simp only [runMethods, h1, if_pos hc, if_pos hn1, hw1]
    rfl
  · intro env t msg h1 h2 hw2
    unfold _run_crystaldiskinfo_dump _LAUNCH_METHOD_NAMES
    simp only [runMethods, h1, h2, if_neg hz, if_pos hn2, hw2]
    rfl
  · intro env t he hc hs h1 h2 h3 hw1 hw2 hw3 hne
    unfold _collect_disk_entries
    rw [he, hc, hs, main env.dumpEnv t h1 h2 h3 hw1 hw2 hw3]
    have : (_parse_crystaldiskinfo_entries t).isEmpty = false := by
      cases hp : _parse_crystaldiskinfo_entries t with
      | nil => exact absurd hp hne
      | cons a l => rfl
    simp only [this, Bool.false_eq_true, if_false]
    rfl

/-- Claim C3 witness: fallback to strategy 3 and nonzero-exit polling on
concrete environments. -/
theorem c3_strategy_order_fallback_witness :
    _run_crystaldiskinfo_dump
      ⟨fun _ => LaunchOutcome.exited 0,
       fun n _ => if n = "direct-elevated" then some "report three" else none⟩ =
      Except.ok ("report three", ["vbs-hidden: no CrystalDiskInfo output",
                                  "scheduled-task-hidden: no CrystalDiskInfo output"]) ∧
    _run_crystaldiskinfo_dump
      ⟨fun _ => LaunchOutcome.exited 7, fun _ _ => some "early"⟩ =
      Except.ok ("early", ["vbs-hidden: exit code " ++ toString (7 : Int)]) :=
  ⟨c3_strategy_order_fallback.1
    ⟨fun _ => LaunchOutcome.exited 0,
     fun n _ => if n = "direct-elevated" then some "report three" else none⟩
    "report three" rfl rfl rfl (by decide) (by decide) (by decide),
   c3_strategy_order_fallback.2.1
    ⟨fun _ => LaunchOutcome.exited 7, fun _ _ => some "early"⟩
    "early" 7 (by decide) rfl rfl⟩

/-- Claim C4: when the dump obtains report text but parsing yields zero
records, the acquisition fails with the distinct "no readable disk data"
error, different from the message produced when all strategies are
exhausted without output; when parsing yields at least one record, the
record list is returned and no error is raised. -/
theorem c4_parse_empty_distinct :
    (∀ (env : CollectEnv) (t : String) (issues : List String),
      env.exeFound = true → env.cdiResourceDir = true → env.smartDir = true →
      _run_crystaldiskinfo_dump env.dumpEnv = Except.ok (t, issues) →
      (_parse_crystaldiskinfo_entries t = [] →
        _collect_disk_entries env =
          Except.error "CrystalDiskInfo did not return readable disk data.") ∧
      (_parse_crystaldiskinfo_entries t ≠ [] →
        _collect_disk_entries env = Except.ok (_parse_crystaldiskinfo_entries t))) ∧
    "CrystalDiskInfo did not return readable disk data." ≠
      "CrystalDiskInfo failed: CrystalDiskInfo did not produce readable output." ∧
    "CrystalDiskInfo did not return readable disk data." ≠ "UAC cancelled by user" := by
  refine ⟨?_, by decide, by decide⟩
  intro env t issues he hc hs hdump
  constructor
  · intro hnil
    unfold _collect_disk_entries
    rw [he, hc, hs, hdump]
    simp [hnil]
  · intro hne
    unfold _collect_disk_entries
    rw [he, hc, hs, hdump]
    have : (_parse_crystaldiskinfo_entries t).isEmpty = false := by
      cases hp : _parse_crystaldiskinfo_entries t with
      | nil => exact absurd hp hne
      | cons a l => rfl
    simp only [this, Bool.false_eq_true, if_false]
    rfl

/-- Claim C4 witness: the parse-empty branch and the success branch of
the theorem at concrete environments. -/
theorem c4_parse_empty_distinct_witness :
    _collect_disk_entries
      ⟨true, true, true, ⟨fun _ => LaunchOutcome.exited 0, fun _ _ => some "no disks here"⟩⟩ =
      Except.error "CrystalDiskInfo did not return readable disk data." ∧
    _collect_disk_entries
      ⟨true, true, true,
        ⟨fun _ => LaunchOutcome.exited 0, fun _ _ => some "(1) Disk\nModel : M\n"⟩⟩ =
      Except.ok (_parse_crystaldiskinfo_entries "(1) Disk\nModel : M\n") :=
  ⟨((c4_parse_empty_distinct.1
      ⟨true, true, true, ⟨fun _ => LaunchOutcome.exited 0, fun _ _ => some "no disks here"⟩⟩
      "no disks here" [] rfl rfl rfl rfl).1 (by decide)),
   ((c4_parse_empty_distinct.1
      ⟨true, true, true,
        ⟨fun _ => LaunchOutcome.exited 0, fun _ _ => some "(1) Disk\nModel : M\n"⟩⟩
      "(1) Disk\nModel : M\n" [] rfl rfl rfl rfl).2 (by decide))⟩

/-- The health-code values of the source (`_parse_health_code`). -/
def GOOD : Int := 0
def WARNING : Int := 1
def BAD : Int := 2

lemma numKeyLe_total (a b : Option Int) : numKeyLe a b ∨ numKeyLe b a := by
  rcases a with _ | x <;> rcases b with _ | y <;> simp [numKeyLe] <;> omega

lemma numKeyLe_trans (a b c : Option Int) (h1 : numKeyLe a b) (h2 : numKeyLe b c) :
    numKeyLe a c := by
  rcases a with _ | x <;> rcases b with _ | y <;> rcases c with _ | z <;>
    simp [numKeyLe] at * <;> omega

instance : IsTotal DiskEntry entryLe :=
  ⟨fun a b => numKeyLe_total a.Number b.Number⟩

instance : IsTrans DiskEntry entryLe :=
  ⟨fun a b c => numKeyLe_trans a.Number b.Number c.Number⟩

/-- Claim C8: `_build_report` on an empty record list returns the
"No physical disks were detected." summary; on a non-empty list it
renders the records sorted by disk number ascending with unknown-number
records last (the details are the blocks of the stably sorted list), a
record is flagged ALERT exactly when its health percent is known and
below 80, or its health code is WARNING or BAD, or its temperature is
known and at least 60 (so healthPercent 75 is flagged even with a GOOD
code, and temperature 65 is flagged even at healthPercent 100), and the
summary is "Disks: n. Healthy: n-alerts. Alerts: alerts.". -/
theorem c8_build_report (entries : List DiskEntry) (hne : entries ≠ []) :
    (_build_report []).summary = "No physical disks were detected." ∧
    (_build_report entries).summary =
      "Disks: " ++ toString entries.length ++ ". Healthy: " ++
        toString (entries.length - (entries.filter fun e => _is_bad_health e).length) ++
        ". Alerts: " ++ toString (entries.filter fun e => _is_bad_health e).length ++ "." ∧
    List.Sorted entryLe (reportOrder entries) ∧
    List.Perm (reportOrder entries) entries ∧
    (_build_report entries).details =
      String.intercalate "\n\n" ((reportOrder entries).map entryBlock) ∧
    (∀ e : DiskEntry, _is_bad_health e = true ↔
      ((∃ hp, e.HealthPercent = some hp ∧ hp < 80) ∨
       e.healthCode = some WARNING ∨ e.healthCode = some BAD ∨
       (∃ t, e.Temperature = some t ∧ 60 ≤ t))) ∧
    (∀ e : DiskEntry, e.HealthPercent = some 75 → e.healthCode = some GOOD →
      _is_bad_health e = true) ∧
    (∀ e : DiskEntry, e.Temperature = some 65 → e.HealthPercent = some 100 →
      _is_bad_health e = true) := by
  have hemp : entries.isEmpty = false := by
    cases entries with
    | nil => exact absurd rfl hne
    | cons a l => rfl
  have hfilt : ((reportOrder entries).filter fun e => _is_bad_health e).length =
      (entries.filter fun e => _is_bad_health e).length :=
    ((List.perm_insertionSort entryLe entries).filter _).length_eq
  refine ⟨rfl, ?_, ?_, ?_, ?_, ?_, ?_, ?_⟩
  · unfold _build_report
    simp only [hemp, Bool.false_eq_true, if_false]
    rw [hfilt]
  · exact List.sorted_insertionSort entryLe entries
  · exact List.perm_insertionSort entryLe entries
  · unfold _build_report
    simp only [hemp, Bool.false_eq_true, if_false]
  · intro e
    unfold _is_bad_health WARNING BAD
    rcases hhp : e.HealthPercent with _ | hp <;> rcases ht : e.Temperature with _ | tv <;>
      simp [hhp, ht] <;> tauto
  · intro e h1 h2
    simp [_is_bad_health, h1, h2]
  · intro e h1 h2
    simp [_is_bad_health, h1, h2]

/-- Claim C8 witness: the summary equation and alert-predicate examples of
the theorem at a concrete one-record list. -/
theorem c8_build_report_witness :
    (_build_report [⟨some 1, "D", "", none, "no data", "no data", "s", some 75, none,
        some 25, none, [], some 0, "crystaldiskinfo"⟩]).summary =
      "Disks: " ++
        toString ([⟨some 1, "D", "", none, "no data", "no data", "s", some 75, none,
          some 25, none, [], some 0, "crystaldiskinfo"⟩] : List DiskEntry).length ++
        ". Healthy: " ++
        toString (([⟨some 1, "D", "", none, "no data", "no data", "s", some 75, none,
            some 25, none, [], some 0, "crystaldiskinfo"⟩] : List DiskEntry).length -
          (([⟨some 1, "D", "", none, "no data", "no data", "s", some 75, none,
            some 25, none, [], some 0, "crystaldiskinfo"⟩] : List DiskEntry).filter
              fun e => _is_bad_health e).length) ++
        ". Alerts: " ++
        toString (([⟨some 1, "D", "", none, "no data", "no data", "s", some 75, none,
          some 25, none, [], some 0, "crystaldiskinfo"⟩] : List DiskEntry).filter
            fun e => _is_bad_health e).length ++ "." :=
  (c8_build_report
    [⟨some 1, "D", "", none, "no data", "no data", "s", some 75, none,
      some 25, none, [], some 0, "crystaldiskinfo"⟩] (by simp)).2.1

/-! ### Stripping lemmas for the friendlyName resolution -/

lemma dropWhile_cons_head_false {p : Char → Bool} :
    ∀ {l : List Char} {c t2}, l.dropWhile p = c :: t2 → p c = false := by
  intro l
  induction l with
  | nil => intro c t2 h; simp at h
  | cons a b ih =>
    intro c t2 h
    rw [List.dropWhile_cons] at h
    by_cases hpa : p a = true
    · rw [if_pos hpa] at h; exact ih h
    · rw [if_neg hpa] at h
      cases h
      simpa using hpa

lemma dropWhile_rdropWhile_dropWhile (p : Char → Bool) (l : List Char) :
    ((l.dropWhile p).rdropWhile p).dropWhile p = (l.dropWhile p).rdropWhile p := by
  obtain ⟨t, ht⟩ := List.rdropWhile_prefix p (l.dropWhile p)
  cases hr : (l.dropWhile p).rdropWhile p with
  | nil => rfl
  | cons d s =>
    obtain ⟨c, t2, hshape⟩ : ∃ c t2, l.dropWhile p = c :: t2 := by
      cases hx : l.dropWhile p with
      | nil =>
        rw [hx] at hr
        simp [List.rdropWhile] at hr
      | cons a b => exact ⟨a, b, rfl⟩
    have hpc : p c = false := dropWhile_cons_head_false hshape
    rw [hr, hshape] at ht
    have hd : d = c := by
      have h0 := congrArg List.head? ht
      simpa using h0
    rw [hd]
    simp [List.dropWhile_cons, hpc]

lemma trimLeft_eq_dropWhile (l : List Char) : trimLeft l = l.dropWhile pyWs := rfl

lemma trimRight_eq_rdropWhile (l : List Char) : trimRight l = l.rdropWhile pyWs := rfl

lemma pyStripL_idem (l : List Char) : pyStripL (pyStripL l) = pyStripL l := by
  simp only [pyStripL, trimLeft_eq_dropWhile, trimRight_eq_rdropWhile]
  rw [dropWhile_rdropWhile_dropWhile, List.rdropWhile_idempotent]

lemma pyStrip_mk_pyStripL (r : List Char) :
    pyStrip (String.mk (pyStripL r)) = String.mk (pyStripL r) := by
  unfold pyStrip
  exact congrArg String.mk (pyStripL_idem r)

/-- A successful `kvMatch` returns a stripped value. -/
lemma kvMatch_val_stripped {l : List Char} {kd v : List Char}
    (h : kvMatch l = some (kd, v)) : ∃ r, v = pyStripL r := by
  simp only [kvMatch] at h
  split at h
  · split at h
    · split at h
      · exact absurd h (by simp)
      · split at h
        · rename_i r heq
          simp only [Option.some.injEq, Prod.mk.injEq] at h
          exact ⟨r, h.2.symm⟩
        · exact absurd h (by simp)
    · exact absurd h (by simp)
  · exact absurd h (by simp)

/-- Every value stored by `_parse_section_properties` is non-empty and
strip-fixed. -/
lemma parse_section_properties_vals (lines : List String) :
    ∀ kv ∈ (_parse_section_properties lines).1, kv.2 ≠ "" ∧ pyStrip kv.2 = kv.2 := by
  suffices hstep : ∀ (ls : List String) (acc : List (String × String) × List (String × String)),
      (∀ kv ∈ acc.1, kv.2 ≠ "" ∧ pyStrip kv.2 = kv.2) →
      ∀ kv ∈ (ls.foldl kvStep acc).1, kv.2 ≠ "" ∧ pyStrip kv.2 = kv.2 by
    exact hstep lines ([], []) (by simp)
  intro ls
  induction ls with
  | nil => intro acc h; exact h
  | cons x xs ih =>
    intro acc h
    rw [List.foldl_cons]
    refine ih (kvStep acc x) ?_
    simp only [kvStep]
    split
    · exact h
    · rename_i kd v heq
      split
      · rename_i hguard
        intro kv hkv
        rcases List.mem_append.mp hkv with hin | hin
        · exact h kv hin
        · simp only [List.mem_singleton] at hin
          subst hin
          obtain ⟨r, hr⟩ := kvMatch_val_stripped heq
          refine ⟨hguard.2.1, ?_⟩
          simp only [hr]
          exact pyStrip_mk_pyStripL r
      · exact h

lemma lookup_mem {k v : String} {l : List (String × String)}
    (h : l.lookup k = some v) : (k, v) ∈ l := by
  induction l with
  | nil => simp [List.lookup] at h
  | cons p t ih =>
    rw [List.lookup] at h
    split at h
    · rename_i hk
      cases h
      have : k = p.1 := by simpa using hk
      subst this
      left
    · right
      exact ih h

/-- `_first_non_empty [lookup "model", some header]` resolves to the
stored model value when present, else to the stripped header label. -/
lemma first_non_empty_resolution (props : List (String × String)) (header : String)
    (hvals : ∀ kv ∈ props, kv.2 ≠ "" ∧ pyStrip kv.2 = kv.2) :
    _first_non_empty [props.lookup "model", some header] =
      (match props.lookup "model" with
       | some m => m
       | none => pyStrip header) := by
  cases hlk : props.lookup "model" with
  | some m =>
    obtain ⟨hne, hfix⟩ := hvals ("model", m) (lookup_mem hlk)
    simp [_first_non_empty, hfix, hne]
  | none =>
    by_cases hh : pyStrip header = ""
    case pos => simp [_first_non_empty, hh]
    case neg => simp [_first_non_empty, hh]

/-- The two-disk sample report of the claim: two bare parenthesized-index
headers, each section with a "Model : X" and a
"Health Status : Good (100%)" line. -/
def c1Sample : String :=
  "(1) Disk One\nModel : Alpha SSD\nHealth Status : Good (100%)\n(2) Disk Two\nModel : Beta Drive\nHealth Status : Good (100%)\n"

set_option maxRecDepth 10000 in
/-- Claim C1: the parser returns one record per section in
header-discovery order, resolving the friendly name to the "Model"
property when present and otherwise to the header label, and dropping
entirely any section whose resolved friendly name is empty; on the
two-disk sample it yields exactly the two records in header order, each
with health percent 100, health code GOOD (0), and wear percent 0. -/
theorem c1_parse_report :
    _parse_crystaldiskinfo_entries c1Sample =
      [⟨some 1, "Alpha SSD", "", none, "no data", "SSD", "Good (100%)", some 100, none,
        some 0, none, [("Model", "Alpha SSD"), ("Health Status", "Good (100%)")], some 0,
        "crystaldiskinfo"⟩,
       ⟨some 2, "Beta Drive", "", none, "no data", "no data", "Good (100%)", some 100, none,
        some 0, none, [("Model", "Beta Drive"), ("Health Status", "Good (100%)")], some 0,
        "crystaldiskinfo"⟩] ∧
    (∀ text : String,
      _parse_crystaldiskinfo_entries text =
        ((_split_disk_sections text).map _build_entry_from_section).filter
          (fun entry => entry.FriendlyName ≠ "")) ∧
    (∀ text : String, ∀ e ∈ _parse_crystaldiskinfo_entries text, e.FriendlyName ≠ "") ∧
    (∀ sec : DiskSection,
      (_build_entry_from_section sec).FriendlyName =
        (match ((_parse_section_properties sec.Lines).1).lookup "model" with
         | some m => m
         | none => pyStrip sec.HeaderName)) := by
  refine ⟨by decide, fun text => rfl, ?_, ?_⟩
  · intro text e he
    simp only [_parse_crystaldiskinfo_entries, List.mem_filter] at he
    simpa using he.2
  · intro sec
    have hfn : (_build_entry_from_section sec).FriendlyName =
        _first_non_empty
          [((_parse_section_properties sec.Lines).1).lookup "model", some sec.HeaderName] := rfl
    rw [hfn]
    exact first_non_empty_resolution _ _ (parse_section_properties_vals sec.Lines)

/-- Claim C1 witness: the filter equation and the friendly-name
resolution of the theorem at concrete inputs. -/
theorem c1_parse_report_witness :
    _parse_crystaldiskinfo_entries "(1) One\nModel : M\n" =
      ((_split_disk_sections "(1) One\nModel : M\n").map _build_entry_from_section).filter
        (fun entry => entry.FriendlyName ≠ "") ∧
    (_build_entry_from_section ⟨some 3, " Header ", ["Model : MX"]⟩).FriendlyName =
      (match ((_parse_section_properties ["Model : MX"]).1).lookup "model" with
       | some m => m
       | none => pyStrip " Header ") :=
  ⟨c1_parse_report.2.1 "(1) One\nModel : M\n",
   c1_parse_report.2.2.2 ⟨some 3, " Header ", ["Model : MX"]⟩⟩

/-! ### Lemmas for the size parser (claim C6) -/

lemma takeWhile_eq_self_of {p : Char → Bool} {l : List Char}
    (h : ∀ c ∈ l, p c = true) : l.takeWhile p = l := by
  induction l with
  | nil => rfl
  | cons a t ih =>
    rw [List.takeWhile_cons, if_pos (h a (by simp))]
    rw [ih fun c hc => h c (by simp [hc])]

lemma dropWhile_append_cons {p : Char → Bool} {d : Char} (hd : p d = false)
    (pre rest : List Char) :
    (pre ++ d :: rest).dropWhile p = pre.dropWhile p ++ d :: rest := by
  induction pre with
  | nil => simp [List.dropWhile_cons, hd]
  | cons a t ih =>
    rw [List.cons_append, List.dropWhile_cons, List.dropWhile_cons]
    by_cases hpa : p a = true
    · simp only [hpa, if_true]
      exact ih
    · simp [hpa]

lemma digit_sizeClassChar {c : Char} (h : c.isDigit = true) : sizeClassChar c = true := by
  simp [sizeClassChar, h]

lemma floatSearch_digits {ds : List Char} (hne : ds ≠ [])
    (hds : ∀ c ∈ ds, c.isDigit = true) :
    floatSearch ds = some ((digitsToNat ds : ℚ)) := by
  cases ds with
  | nil => exact absurd rfl hne
  | cons d t =>
    have hd : d.isDigit = true := hds d (by simp)
    rw [floatSearch.eq_def]
    split
    · rename_i heq
      exact absurd heq (by simp)
    · rename_i rest heq
      injection heq with h1 h2
      rw [h1] at hd
      exact absurd hd (by decide)
    · rename_i c rest hcne heq
      injection heq with h1 h2
      rw [← h1, ← h2]
      rw [if_pos hd]
      simp only [floatAt, takeWhile_eq_self_of hds]
      have hlen : ((d :: t).drop (d :: t).length) = [] := List.drop_length _
      rw [hlen]
      simp [show digitsToNat [] = 0 from rfl]

lemma pyToFloat_digits_space {ds : List Char} (hne : ds ≠ [])
    (hds : ∀ c ∈ ds, c.isDigit = true) :
    pyToFloat (String.mk (ds ++ [' '])) = some ((digitsToNat ds : ℚ)) := by
  have hstrip : pyStripL (ds ++ [' ']) = ds := by
    unfold pyStripL
    rw [trimLeft_eq_dropWhile, trimRight_eq_rdropWhile]
    cases ds with
    | nil => exact absurd rfl hne
    | cons d t =>
      rw [List.cons_append, List.dropWhile_cons,
        if_neg (by simp [isDigit_not_pyWs (hds d (by simp))]), ← List.cons_append,
        List.rdropWhile_concat_pos _ _ _ (by decide)]
      refine List.rdropWhile_eq_self_iff.mpr fun hl => ?_
      have := hds _ (List.getLast_mem hl)
      simp [isDigit_not_pyWs this]
  unfold pyToFloat
  simp only [hstrip]
  have : ds.isEmpty = false := by
    cases ds with
    | nil => exact absurd rfl hne
    | cons d t => rfl
  simp only [this, Bool.false_eq_true, if_false]
  exact floatSearch_digits hne hds

lemma takeWhile_class_run {ds utail : List Char} (hds : ∀ c ∈ ds, c.isDigit = true)
    (hu1 : utail ≠ []) (hu2 : sizeClassChar (utail.headD 'A') = false) :
    (ds ++ ' ' :: utail).takeWhile sizeClassChar = ds ++ [' '] := by
  induction ds with
  | nil =>
    simp only [List.nil_append]
    rw [List.takeWhile_cons, if_pos (by decide)]
    cases utail with
    | nil => exact absurd rfl hu1
    | cons c t =>
      simp only [List.headD_cons] at hu2
      rw [List.takeWhile_cons, if_neg (by simp [hu2])]
  | cons a t ih =>
    rw [List.cons_append, List.takeWhile_cons,
      if_pos (digit_sizeClassChar (hds a (by simp)))]
    rw [ih fun c hc => hds c (by simp [hc])]
    rfl

lemma sizeSearch_run {pre2 ds utail : List Char} {ustr : String}
    (hpre : ∀ c ∈ pre2, c.isDigit = false)
    (hne : ds ≠ []) (hds : ∀ c ∈ ds, c.isDigit = true)
    (hu1 : utail ≠ []) (hu2 : sizeClassChar (utail.headD 'A') = false)
    (hut : unitAt utail = some ustr) :
    sizeSearch (pre2 ++ (ds ++ ' ' :: utail)) = some (ds ++ [' '], ustr) := by
  induction pre2 with
  | nil =>
    simp only [List.nil_append]
    cases ds with
    | nil => exact absurd rfl hne
    | cons d t =>
      have hd : d.isDigit = true := hds d (by simp)
      rw [List.cons_append]
      rw [sizeSearch]
      have hrun : ((d :: (t ++ ' ' :: utail)).takeWhile sizeClassChar) = (d :: t) ++ [' '] := by
        rw [← List.cons_append]
        exact takeWhile_class_run hds hu1 hu2
      have hdrop : ((d :: (t ++ ' ' :: utail)).drop ((d :: t) ++ [' ']).length) = utail := by
        rw [show d :: (t ++ ' ' :: utail) = ((d :: t) ++ [' ']) ++ utail by simp]
        exact List.drop_left _ _
      simp only [sizeAt, hrun, hdrop, hd, if_true, hut]
      rfl
  | cons a t ih =>
    have ha : a.isDigit = false := hpre a (by simp)
    rw [List.cons_append, sizeSearch]
    simp only [ha, Bool.false_eq_true, if_false, Option.none_orElse]
    exact ih fun c hc => hpre c (by simp [hc])

lemma pyTruncQ_nat_mul (n m : ℕ) : pyTruncQ ((n : ℚ) * (m : ℚ)) = ((n * m : ℕ) : Int) := by
  have hcast : ((n : ℚ) * (m : ℚ)) = ((n * m : ℕ) : ℚ) := by push_cast; ring
  rw [hcast]
  unfold pyTruncQ
  rw [if_pos (by positivity), Rat.num_natCast, Rat.den_natCast]
  simp only [Int.toNat_natCast, Nat.div_one]

/-- `_parse_size_bytes` on a digit-free prefix, a digit run, a space and a
unit tail returns the exact product of the number and the multiplier. -/
lemma size_bytes_digits_unit (pre ds utail : List Char) (ustr : String) (m : ℕ)
    (hpre : ∀ c ∈ pre, c.isDigit = false)
    (hne : ds ≠ []) (hds : ∀ c ∈ ds, c.isDigit = true)
    (hu1 : utail ≠ []) (hu2 : sizeClassChar (utail.headD 'A') = false)
    (hu3 : pyWs (utail.getLastD 'A') = false)
    (hut : unitAt utail = some ustr)
    (hmul : _SIZE_MULTIPLIERS.lookup (pyUpper ustr) = some m) :
    _parse_size_bytes (String.mk (pre ++ ds ++ ' ' :: utail)) =
      some ((digitsToNat ds * m : ℕ) : Int) := by
  obtain ⟨d, t, rfl⟩ : ∃ d t, ds = d :: t := by
    cases ds with
    | nil => exact absurd rfl hne
    | cons d t => exact ⟨d, t, rfl⟩
  obtain ⟨mid, lc, hsplit⟩ : ∃ mid lc, utail = mid ++ [lc] := by
    rcases List.eq_nil_or_concat utail with h | ⟨L, b, h⟩
    · exact absurd h hu1
    · exact ⟨L, b, by simpa [List.concat_eq_append] using h⟩
  have hlc : pyWs lc = false := by
    rw [hsplit] at hu3
    simpa using hu3
  have hstrip : pyStripL (pre ++ (d :: t) ++ ' ' :: utail) =
      pre.dropWhile pyWs ++ ((d :: t) ++ ' ' :: utail) := by
    unfold pyStripL
    rw [trimLeft_eq_dropWhile, trimRight_eq_rdropWhile]
    rw [show pre ++ (d :: t) ++ ' ' :: utail = pre ++ d :: (t ++ ' ' :: utail) by simp]
    rw [dropWhile_append_cons (isDigit_not_pyWs (hds d (by simp))) pre _]
    rw [hsplit]
    rw [show pre.dropWhile pyWs ++ d :: (t ++ ' ' :: (mid ++ [lc])) =
        (pre.dropWhile pyWs ++ d :: (t ++ ' ' :: mid)) ++ [lc] by simp]
    rw [List.rdropWhile_concat_neg _ _ _ (by simp [hlc])]
    simp
  have hpre2 : ∀ c ∈ pre.dropWhile pyWs, c.isDigit = false :=
    fun c hc => hpre c ((List.dropWhile_sublist pyWs).subset hc)
  have hsize : sizeSearch (pre.dropWhile pyWs ++ ((d :: t) ++ ' ' :: utail)) =
      some ((d :: t) ++ [' '], ustr) :=
    sizeSearch_run hpre2 hne hds hu1 hu2 hut
  have hfloat : pyToFloat (String.mk ((d :: t) ++ [' '])) =
      some ((digitsToNat (d :: t) : ℚ)) :=
    pyToFloat_digits_space hne hds
  have hdata : (pyStrip (String.mk (pre ++ (d :: t) ++ ' ' :: utail))).data =
      pre.dropWhile pyWs ++ ((d :: t) ++ ' ' :: utail) := hstrip
  have hdne : (pre.dropWhile pyWs ++ ((d :: t) ++ ' ' :: utail)).isEmpty = false := by
    simp
  simp only [_parse_size_bytes, hdata, hdne, Bool.false_eq_true, if_false, hsize,
    hfloat, hmul]
  rw [pyTruncQ_nat_mul]

lemma pyTruncQ_natCast (n : ℕ) : pyTruncQ ((n : ℚ)) = (n : Int) := by
  unfold pyTruncQ
  rw [if_pos (by positivity), Rat.num_natCast, Rat.den_natCast]
  simp only [Int.toNat_natCast, Nat.div_one]

lemma pyTruncQ_floor (q : ℚ) (h : 0 ≤ q) : pyTruncQ q = ⌊q⌋ := by
  unfold pyTruncQ
  rw [if_pos h, Rat.floor_def, Int.ofNat_ediv,
    Int.toNat_of_nonneg (Rat.num_nonneg.mpr h)]

lemma floatSearch_cons_digit {c : Char} {rest : List Char} (h : c.isDigit = true) :
    floatSearch (c :: rest) = floatAt (c :: rest) := by
  rw [floatSearch.eq_def]
  split
  · rename_i heq
    exact absurd heq (by simp)
  · rename_i r heq
    injection heq with h1 h2
    rw [h1] at h
    exact absurd h (by decide)
  · rename_i c2 r hcne heq
    injection heq with h1 h2
    rw [← h1, ← h2]
    rw [if_pos h]

lemma takeWhile_append_cons {p : Char → Bool} {d : Char} (hd : p d = false)
    (pre rest : List Char) (hpre : ∀ c ∈ pre, p c = true) :
    (pre ++ d :: rest).takeWhile p = pre := by
  induction pre with
  | nil => simp [List.takeWhile_cons, hd]
  | cons a t ih =>
    rw [List.cons_append, List.takeWhile_cons, if_pos (hpre a (by simp))]
    rw [ih fun c hc => hpre c (by simp [hc])]

lemma takeWhile_class_run2 {run utail : List Char}
    (hrun : ∀ c ∈ run, sizeClassChar c = true)
    (hu1 : utail ≠ []) (hu2 : sizeClassChar (utail.headD 'A') = false) :
    (run ++ utail).takeWhile sizeClassChar = run := by
  induction run with
  | nil =>
    simp only [List.nil_append]
    cases utail with
    | nil => exact absurd rfl hu1
    | cons c t =>
      simp only [List.headD_cons] at hu2
      rw [List.takeWhile_cons, if_neg (by simp [hu2])]
  | cons a t ih =>
    rw [List.cons_append, List.takeWhile_cons, if_pos (hrun a (by simp))]
    rw [ih fun c hc => hrun c (by simp [hc])]

lemma sizeSearch_run2 {pre2 t0 utail : List Char} {d : Char} {ustr : String}
    (hpre : ∀ c ∈ pre2, c.isDigit = false)
    (hd : d.isDigit = true)
    (hrun : ∀ c ∈ d :: t0, sizeClassChar c = true)
    (hu1 : utail ≠ []) (hu2 : sizeClassChar (utail.headD 'A') = false)
    (hut : unitAt utail = some ustr) :
    sizeSearch (pre2 ++ ((d :: t0) ++ utail)) = some (d :: t0, ustr) := by
  induction pre2 with
  | nil =>
    simp only [List.nil_append]
    rw [List.cons_append, sizeSearch]
    have hrun2 : ((d :: (t0 ++ utail)).takeWhile sizeClassChar) = d :: t0 := by
      rw [← List.cons_append]
      exact takeWhile_class_run2 hrun hu1 hu2
    have hdrop : ((d :: (t0 ++ utail)).drop (d :: t0).length) = utail := by
      rw [show d :: (t0 ++ utail) = (d :: t0) ++ utail by simp]
      exact List.drop_left _ _
    simp only [sizeAt, hrun2, hdrop, hd, if_true, hut]
    rfl
  | cons a t ih =>
    have ha : a.isDigit = false := hpre a (by simp)
    rw [List.cons_append, sizeSearch]
    simp only [ha, Bool.false_eq_true, if_false, Option.none_orElse]
    exact ih fun c hc => hpre c (by simp [hc])

/-- `pyToFloat` on digits, a decimal point, fraction digits and a trailing
space: the exact rational value of the decimal literal. -/
lemma pyToFloat_decimal {ds fs : List Char} (hne : ds ≠ [])
    (hds : ∀ c ∈ ds, c.isDigit = true) (hfs : ∀ c ∈ fs, c.isDigit = true) :
    pyToFloat (String.mk (ds ++ '.' :: fs ++ [' '])) =
      some ((digitsToNat ds : ℚ) + (digitsToNat fs : ℚ) / (10 : ℚ) ^ fs.length) := by
  obtain ⟨d, t, rfl⟩ : ∃ d t, ds = d :: t := by
    cases ds with
    | nil => exact absurd rfl hne
    | cons d t => exact ⟨d, t, rfl⟩
  have hstrip : pyStripL ((d :: t) ++ '.' :: fs ++ [' ']) = (d :: t) ++ '.' :: fs := by
    unfold pyStripL
    rw [trimLeft_eq_dropWhile, trimRight_eq_rdropWhile]
    rw [show (d :: t) ++ '.' :: fs ++ [' '] = d :: (t ++ '.' :: fs ++ [' ']) by simp]
    rw [List.dropWhile_cons, if_neg (by simp [isDigit_not_pyWs (hds d (by simp))])]
    rw [show d :: (t ++ '.' :: fs ++ [' ']) = ((d :: t) ++ '.' :: fs) ++ [' '] by simp]
    rw [List.rdropWhile_concat_pos _ _ _ (by decide)]
    refine List.rdropWhile_eq_self_iff.mpr fun hl => ?_
    have hm := List.getLast_mem hl
    have hws : pyWs (((d :: t) ++ '.' :: fs).getLast hl) = false := by
      rcases List.mem_append.mp hm with h | h
      · exact isDigit_not_pyWs (hds _ h)
      · rcases List.mem_cons.mp h with h | h
        · rw [h]; decide
        · exact isDigit_not_pyWs (hfs _ h)
    intro hc
    rw [hws] at hc
    exact Bool.noConfusion hc
  unfold pyToFloat
  simp only [hstrip]
  have hne2 : ((d :: t) ++ '.' :: fs).isEmpty = false := by simp
  simp only [hne2, Bool.false_eq_true, if_false]
  rw [List.cons_append, floatSearch_cons_digit (hds d (by simp))]
  simp only [floatAt]
  have ht1 : (d :: (t ++ '.' :: fs)).takeWhile Char.isDigit = d :: t := by
    rw [← List.cons_append]
    exact takeWhile_append_cons (by decide) _ _ hds
  have ht2 : (d :: (t ++ '.' :: fs)).drop (d :: t).length = '.' :: fs := by
    rw [show d :: (t ++ '.' :: fs) = (d :: t) ++ '.' :: fs by simp]
    exact List.drop_left _ _
  simp only [ht1, ht2]
  simp [takeWhile_eq_self_of hfs]

/-- `_parse_size_bytes` on a digit-free prefix, a decimal number, a space
and a unit tail: the truncated product of the exact value and the
multiplier. -/
lemma size_bytes_decimal (pre ds fs utail : List Char) (ustr : String) (m : ℕ)
    (hpre : ∀ c ∈ pre, c.isDigit = false)
    (hne : ds ≠ []) (hds : ∀ c ∈ ds, c.isDigit = true)
    (hfs : ∀ c ∈ fs, c.isDigit = true)
    (hu1 : utail ≠ []) (hu2 : sizeClassChar (utail.headD 'A') = false)
    (hu3 : pyWs (utail.getLastD 'A') = false)
    (hut : unitAt utail = some ustr)
    (hmul : _SIZE_MULTIPLIERS.lookup (pyUpper ustr) = some m) :
    _parse_size_bytes (String.mk (pre ++ ds ++ '.' :: fs ++ ' ' :: utail)) =
      some (pyTruncQ (((digitsToNat ds : ℚ) + (digitsToNat fs : ℚ) / (10 : ℚ) ^ fs.length)
        * (m : ℚ))) := by
  obtain ⟨d, t, rfl⟩ : ∃ d t, ds = d :: t := by
    cases ds with
    | nil => exact absurd rfl hne
    | cons d t => exact ⟨d, t, rfl⟩
  obtain ⟨mid, lc, hsplit⟩ : ∃ mid lc, utail = mid ++ [lc] := by
    rcases List.eq_nil_or_concat utail with h | ⟨L, b, h⟩
    · exact absurd h hu1
    · exact ⟨L, b, by simpa [List.concat_eq_append] using h⟩
  have hlc : pyWs lc = false := by
    rw [hsplit] at hu3
    simpa using hu3
  have hstrip : pyStripL (pre ++ (d :: t) ++ '.' :: fs ++ ' ' :: utail) =
      pre.dropWhile pyWs ++ ((d :: t) ++ '.' :: fs ++ ' ' :: utail) := by
    unfold pyStripL
    rw [trimLeft_eq_dropWhile, trimRight_eq_rdropWhile]
    rw [show pre ++ (d :: t) ++ '.' :: fs ++ ' ' :: utail
        = pre ++ d :: (t ++ '.' :: fs ++ ' ' :: utail) by simp]
    rw [dropWhile_append_cons (isDigit_not_pyWs (hds d (by simp))) pre _]
    rw [hsplit]
    rw [show pre.dropWhile pyWs ++ d :: (t ++ '.' :: fs ++ ' ' :: (mid ++ [lc]))
        = (pre.dropWhile pyWs ++ d :: (t ++ '.' :: fs ++ ' ' :: mid)) ++ [lc] by simp]
    rw [List.rdropWhile_concat_neg _ _ _ (by simp [hlc])]
    simp
  have hpre2 : ∀ c ∈ pre.dropWhile pyWs, c.isDigit = false :=
    fun c hc => hpre c ((List.dropWhile_sublist pyWs).subset hc)
  have hrunc : ∀ c ∈ d :: (t ++ '.' :: fs ++ [' ']), sizeClassChar c = true := by
    intro c hc
    rcases List.mem_cons.mp hc with h | h
    · rw [h]
      exact digit_sizeClassChar (hds d (by simp))
    · rcases List.mem_append.mp h with h1 | h1
      · rcases List.mem_append.mp h1 with h2 | h2
        · exact digit_sizeClassChar (hds c (by simp [h2]))
        · rcases List.mem_cons.mp h2 with h3 | h3
          · rw [h3]; decide
          · exact digit_sizeClassChar (hfs c h3)
      · rw [List.mem_singleton.mp h1]; decide
  have hsize0 := @sizeSearch_run2 (pre.dropWhile pyWs) (t ++ '.' :: fs ++ [' ']) utail
    d ustr hpre2 (hds d (by simp)) hrunc hu1 hu2 hut
  have hsize : sizeSearch (pre.dropWhile pyWs ++ ((d :: t) ++ '.' :: fs ++ ' ' :: utail)) =
      some ((d :: t) ++ '.' :: fs ++ [' '], ustr) := by
    rw [show pre.dropWhile pyWs ++ ((d :: t) ++ '.' :: fs ++ ' ' :: utail)
        = pre.dropWhile pyWs ++ ((d :: (t ++ '.' :: fs ++ [' '])) ++ utail) by simp,
      show ((d :: t) ++ '.' :: fs ++ [' '] : List Char)
        = d :: (t ++ '.' :: fs ++ [' ']) by simp]
    exact hsize0
  have hfloat : pyToFloat (String.mk ((d :: t) ++ '.' :: fs ++ [' '])) =
      some ((digitsToNat (d :: t) : ℚ) + (digitsToNat fs : ℚ) / (10 : ℚ) ^ fs.length) :=
    pyToFloat_decimal hne hds hfs
  have hdata : (pyStrip (String.mk (pre ++ (d :: t) ++ '.' :: fs ++ ' ' :: utail))).data =
      pre.dropWhile pyWs ++ ((d :: t) ++ '.' :: fs ++ ' ' :: utail) := hstrip
  have hdne : (pre.dropWhile pyWs ++ ((d :: t) ++ '.' :: fs ++ ' ' :: utail)).isEmpty
      = false := by simp
  simp only [_parse_size_bytes, hdata, hdne, Bool.false_eq_true, if_false, hsize,
    hfloat, hmul]

lemma size512GB_eval : _parse_size_bytes "512.00 GB" = some 512000000000 := by
  have h := size_bytes_decimal [] ['5', '1', '2'] ['0', '0'] "GB".data "GB" 1000000000
    (by simp) (by decide) (by decide) (by decide) (by decide) (by decide) (by decide)
    (by decide) (by decide)
  rw [show ("512.00 GB" : String)
      = String.mk (([] : List Char) ++ ['5', '1', '2'] ++ '.' :: ['0', '0'] ++ ' ' :: "GB".data)
    by decide, h]
  have hv : ((digitsToNat ['5', '1', '2'] : ℚ)
        + (digitsToNat ['0', '0'] : ℚ) / (10 : ℚ) ^ (['0', '0'] : List Char).length)
      * ((1000000000 : ℕ) : ℚ) = ((512000000000 : ℕ) : ℚ) := by
    norm_num [show digitsToNat ['5', '1', '2'] = 512 from rfl,
      show digitsToNat ['0', '0'] = 0 from rfl]
  rw [hv, pyTruncQ_natCast]
  norm_num

lemma size512gb_eval : _parse_size_bytes "512.00 gb" = some 512000000000 := by
  have h := size_bytes_decimal [] ['5', '1', '2'] ['0', '0'] "gb".data "GB" 1000000000
    (by simp) (by decide) (by decide) (by decide) (by decide) (by decide) (by decide)
    (by decide) (by decide)
  rw [show ("512.00 gb" : String)
      = String.mk (([] : List Char) ++ ['5', '1', '2'] ++ '.' :: ['0', '0'] ++ ' ' :: "gb".data)
    by decide, h]
  have hv : ((digitsToNat ['5', '1', '2'] : ℚ)
        + (digitsToNat ['0', '0'] : ℚ) / (10 : ℚ) ^ (['0', '0'] : List Char).length)
      * ((1000000000 : ℕ) : ℚ) = ((512000000000 : ℕ) : ℚ) := by
    norm_num [show digitsToNat ['5', '1', '2'] = 512 from rfl,
      show digitsToNat ['0', '0'] = 0 from rfl]
  rw [hv, pyTruncQ_natCast]
  norm_num

lemma size1TB_eval : _parse_size_bytes "1 TB" = some 1000000000000 := by
  have h := size_bytes_digits_unit [] ['1'] "TB".data "TB" 1000000000000
    (by simp) (by decide) (by decide) (by decide) (by decide) (by decide) (by decide)
    (by decide)
  rw [show ("1 TB" : String) = String.mk (([] : List Char) ++ ['1'] ++ ' ' :: "TB".data)
    by decide, h]
  decide

lemma sizeHalfB_eval : _parse_size_bytes "0.5 B" = some 0 := by
  have h := size_bytes_decimal [] ['0'] ['5'] "B".data "B" 1
    (by simp) (by decide) (by decide) (by decide) (by decide) (by decide) (by decide)
    (by decide) (by decide)
  rw [show ("0.5 B" : String)
      = String.mk (([] : List Char) ++ ['0'] ++ '.' :: ['5'] ++ ' ' :: "B".data)
    by decide, h]
  have hv : ((digitsToNat ['0'] : ℚ)
        + (digitsToNat ['5'] : ℚ) / (10 : ℚ) ^ (['5'] : List Char).length)
      * ((1 : ℕ) : ℚ) = 1 / 2 := by
    norm_num [show digitsToNat ['0'] = 0 from rfl, show digitsToNat ['5'] = 5 from rfl]
  rw [hv, pyTruncQ_floor _ (by norm_num)]
  norm_num [Int.floor_eq_iff]

lemma map_eq_single {f : Char → Char} {l : List Char} {a : Char}
    (h : l.map f = [a]) : ∃ x, l = [x] ∧ f x = a := by
  cases l with
  | nil => exact absurd h (by simp)
  | cons x t =>
    cases t with
    | nil =>
      simp only [List.map_cons, List.map_nil] at h
      injection h with h1 h2
      exact ⟨x, rfl, h1⟩
    | cons y t2 => exact absurd h (by simp)

lemma map_eq_pair {f : Char → Char} {l : List Char} {a b : Char}
    (h : l.map f = [a, b]) : ∃ x y, l = [x, y] ∧ f x = a ∧ f y = b := by
  cases l with
  | nil => exact absurd h (by simp)
  | cons x t =>
    cases t with
    | nil => exact absurd h (by simp)
    | cons y t2 =>
      cases t2 with
      | nil =>
        simp only [List.map_cons, List.map_nil] at h
        injection h with h1 h2
        injection h2 with h2 h3
        exact ⟨x, y, rfl, h1, h2⟩
      | cons z t3 => exact absurd h (by simp)

lemma toUpper_eq_self_of_toNat {c : Char} (h : ¬(97 ≤ c.toNat ∧ c.toNat ≤ 122)) :
    c.toUpper = c := by
  simp only [Char.toUpper]
  rw [if_neg h]

/-- A character whose `toUpper` is an upper-case ASCII letter is itself an
ASCII letter (upper or lower). -/
lemma toNat_range_of_toUpper {c u : Char} (hu : 65 ≤ u.toNat ∧ u.toNat ≤ 90)
    (h : c.toUpper = u) :
    (65 ≤ c.toNat ∧ c.toNat ≤ 90) ∨ (97 ≤ c.toNat ∧ c.toNat ≤ 122) := by
  by_cases hr : 97 ≤ c.toNat ∧ c.toNat ≤ 122
  · exact Or.inr hr
  · left
    have hcu : c = u := by rw [← h, toUpper_eq_self_of_toNat hr]
    rw [hcu]
    exact hu

/-- A unit letter (in either case) is outside the `_SIZE_RE` group-1 class. -/
lemma sizeClassChar_false_of_toUpper {c u : Char} (hu : 65 ≤ u.toNat ∧ u.toNat ≤ 90)
    (h : c.toUpper = u) : sizeClassChar c = false := by
  have hr := toNat_range_of_toUpper hu h
  have hdig : c.isDigit = false := by
    cases hi : c.isDigit
    · rfl
    · exact absurd (isDigit_toNat hi) (by omega)
  have hws : pyWs c = false := by
    cases hw : pyWs c
    · rfl
    · exfalso
      unfold pyWs at hw
      simp only [Bool.or_eq_true, decide_eq_true_eq, Bool.and_eq_true] at hw
      omega
  have hdot : (decide (c = '.')) = false := by
    refine decide_eq_false ?_
    intro he
    rw [he] at hr
    have h46 : ('.' : Char).toNat = 46 := rfl
    omega
  have hcom : (decide (c = ',')) = false := by
    refine decide_eq_false ?_
    intro he
    rw [he] at hr
    have h44 : (',' : Char).toNat = 44 := rfl
    omega
  simp [sizeClassChar, hdig, hws, hdot, hcom]

/-! `unitAt` on an arbitrary-case spelling of each unit: the candidates are
tried in the pattern's order and compare case-insensitively, so the first
letter's upper-case image decides every earlier candidate, and the `\b`
boundary looks only at the first character after the spelling. -/

lemma unitAt_B {c1 : Char} {rest : List Char} (h1 : c1.toUpper = 'B')
    (hb : rest = [] ∨ isWordChar (rest.headD 'A') = false) :
    unitAt (c1 :: rest) = some "B" := by
  unfold unitAt
  rw [List.find?_cons_of_pos _ ?pos]
  case pos =>
    simp only []
    rw [ciBegins, h1]
    rw [show ("B" : String).length = 1 from rfl]
    rw [show List.drop 1 (c1 :: rest) = rest from rfl]
    cases rest with
    | nil => simp [ciBegins]
    | cons r rs =>
      rcases hb with hrest | hbf
      · exact absurd hrest (by simp)
      · simp only [List.headD_cons] at hbf
        simp [ciBegins, hbf]

lemma unitAt_KB {c1 c2 : Char} {rest : List Char}
    (h1 : c1.toUpper = 'K') (h2 : c2.toUpper = 'B')
    (hb : rest = [] ∨ isWordChar (rest.headD 'A') = false) :
    unitAt (c1 :: c2 :: rest) = some "KB" := by
  unfold unitAt
  rw [List.find?_cons_of_neg _ ?n1]
  case n1 =>
    simp only []
    rw [ciBegins, h1]
    simp
  rw [List.find?_cons_of_pos _ ?pos]
  case pos =>
    simp only []
    rw [ciBegins, h1, ciBegins, h2]
    rw [show ("KB" : String).length = 2 from rfl]
    rw [show List.drop 2 (c1 :: c2 :: rest) = rest from rfl]
    cases rest with
    | nil => simp [ciBegins]
    | cons r rs =>
      rcases hb with hrest | hbf
      · exact absurd hrest (by simp)
      · simp only [List.headD_cons] at hbf
        simp [ciBegins, hbf]

lemma unitAt_MB {c1 c2 : Char} {rest : List Char}
    (h1 : c1.toUpper = 'M') (h2 : c2.toUpper = 'B')
    (hb : rest = [] ∨ isWordChar (rest.headD 'A') = false) :
    unitAt (c1 :: c2 :: rest) = some "MB" := by
  unfold unitAt
  rw [List.find?_cons_of_neg _ ?n1]
  case n1 =>
    simp only []
    rw [ciBegins, h1]
    simp
  rw [List.find?_cons_of_neg _ ?n2]
  case n2 =>
    simp only []
    rw [ciBegins, h1]
    simp
  rw [List.find?_cons_of_pos _ ?pos]
  case pos =>
    simp only []
    rw [ciBegins, h1, ciBegins, h2]
    rw [show ("MB" : String).length = 2 from rfl]
    rw [show List.drop 2 (c1 :: c2 :: rest) = rest from rfl]
    cases rest with
    | nil => simp [ciBegins]
    | cons r rs =>
      rcases hb with hrest | hbf
      · exact absurd hrest (by simp)
      · simp only [List.headD_cons] at hbf
        simp [ciBegins, hbf]

lemma unitAt_GB {c1 c2 : Char} {rest : List Char}
    (h1 : c1.toUpper = 'G') (h2 : c2.toUpper = 'B')
    (hb : rest = [] ∨ isWordChar (rest.headD 'A') = false) :
    unitAt (c1 :: c2 :: rest) = some "GB" := by
  unfold unitAt
  rw [List.find?_cons_of_neg _ ?n1]
  case n1 =>
    simp only []
    rw [ciBegins, h1]
    simp
  rw [List.find?_cons_of_neg _ ?n2]
  case n2 =>
    simp only []
    rw [ciBegins, h1]
    simp
  rw [List.find?_cons_of_neg _ ?n3]
  case n3 =>
    simp only []
    rw [ciBegins, h1]
    simp
  rw [List.find?_cons_of_pos _ ?pos]
  case pos =>
    simp only []
    rw [ciBegins, h1, ciBegins, h2]
    rw [show ("GB" : String).length = 2 from rfl]
    rw [show List.drop 2 (c1 :: c2 :: rest) = rest from rfl]
    cases rest with
    | nil => simp [ciBegins]
    | cons r rs =>
      rcases hb with hrest | hbf
      · exact absurd hrest (by simp)
      · simp only [List.headD_cons] at hbf
        simp [ciBegins, hbf]

lemma unitAt_TB {c1 c2 : Char} {rest : List Char}
    (h1 : c1.toUpper = 'T') (h2 : c2.toUpper = 'B')
    (hb : rest = [] ∨ isWordChar (rest.headD 'A') = false) :
    unitAt (c1 :: c2 :: rest) = some "TB" := by
  unfold unitAt
  rw [List.find?_cons_of_neg _ ?n1]
  case n1 =>
    simp only []
    rw [ciBegins, h1]
    simp
  rw [List.find?_cons_of_neg _ ?n2]
  case n2 =>
    simp only []
    rw [ciBegins, h1]
    simp
  rw [List.find?_cons_of_neg _ ?n3]
  case n3 =>
    simp only []
    rw [ciBegins, h1]
    simp
  rw [List.find?_cons_of_neg _ ?n4]
  case n4 =>
    simp only []
    rw [ciBegins, h1]
    simp
  rw [List.find?_cons_of_pos _ ?pos]
  case pos =>
    simp only []
    rw [ciBegins, h1, ciBegins, h2]
    rw [show ("TB" : String).length = 2 from rfl]
    rw [show List.drop 2 (c1 :: c2 :: rest) = rest from rfl]
    cases rest with
    | nil => simp [ciBegins]
    | cons r rs =>
      rcases hb with hrest | hbf
      · exact absurd hrest (by simp)
      · simp only [List.headD_cons] at hbf
        simp [ciBegins, hbf]

lemma unitAt_PB {c1 c2 : Char} {rest : List Char}
    (h1 : c1.toUpper = 'P') (h2 : c2.toUpper = 'B')
    (hb : rest = [] ∨ isWordChar (rest.headD 'A') = false) :
    unitAt (c1 :: c2 :: rest) = some "PB" := by
  unfold unitAt
  rw [List.find?_cons_of_neg _ ?n1]
  case n1 =>
    simp only []
    rw [ciBegins, h1]
    simp
  rw [List.find?_cons_of_neg _ ?n2]
  case n2 =>
    simp only []
    rw [ciBegins, h1]
    simp
  rw [List.find?_cons_of_neg _ ?n3]
  case n3 =>
    simp only []
    rw [ciBegins, h1]
    simp
  rw [List.find?_cons_of_neg _ ?n4]
  case n4 =>
    simp only []
    rw [ciBegins, h1]
    simp
  rw [List.find?_cons_of_neg _ ?n5]
  case n5 =>
    simp only []
    rw [ciBegins, h1]
    simp
  rw [List.find?_cons_of_pos _ ?pos]
  case pos =>
    simp only []
    rw [ciBegins, h1, ciBegins, h2]
    rw [show ("PB" : String).length = 2 from rfl]
    rw [show List.drop 2 (c1 :: c2 :: rest) = rest from rfl]
    cases rest with
    | nil => simp [ciBegins]
    | cons r rs =>
      rcases hb with hrest | hbf
      · exact absurd hrest (by simp)
      · simp only [List.headD_cons] at hbf
        simp [ciBegins, hbf]

lemma rdropWhile_append_ws {l ws : List Char} (hws : ∀ c ∈ ws, pyWs c = true) :
    List.rdropWhile pyWs (l ++ ws) = List.rdropWhile pyWs l := by
  induction ws using List.reverseRecOn with
  | nil => simp
  | append_singleton ws2 w ih =>
    rw [show l ++ (ws2 ++ [w]) = (l ++ ws2) ++ [w] by simp]
    rw [List.rdropWhile_concat_pos _ _ _ (hws w (by simp))]
    exact ih fun c hc => hws c (by simp [hc])

/-- `pyToFloat` on a digit run followed by a whitespace run: the run's value
(`_to_float` strips the text before matching). -/
lemma pyToFloat_digits_ws {ds ws : List Char} (hne : ds ≠ [])
    (hds : ∀ c ∈ ds, c.isDigit = true) (hws : ∀ c ∈ ws, pyWs c = true) :
    pyToFloat (String.mk (ds ++ ws)) = some ((digitsToNat ds : ℚ)) := by
  have hstrip : pyStripL (ds ++ ws) = ds := by
    unfold pyStripL
    rw [trimLeft_eq_dropWhile, trimRight_eq_rdropWhile]
    cases ds with
    | nil => exact absurd rfl hne
    | cons d t =>
      rw [List.cons_append, List.dropWhile_cons,
        if_neg (by simp [isDigit_not_pyWs (hds d (by simp))]), ← List.cons_append]
      rw [rdropWhile_append_ws hws]
      refine List.rdropWhile_eq_self_iff.mpr fun hl => ?_
      have := hds _ (List.getLast_mem hl)
      simp [isDigit_not_pyWs this]
  unfold pyToFloat
  simp only [hstrip]
  have hie : ds.isEmpty = false := by
    cases ds with
    | nil => exact absurd rfl hne
    | cons d t => rfl
  simp only [hie, Bool.false_eq_true, if_false]
  exact floatSearch_digits hne hds

/-- `_parse_size_bytes` on a digit-free prefix, a digit run, a whitespace run
(possibly empty) and a unit tail: the exact product of the number and the
multiplier. -/
lemma size_bytes_ws_unit (pre ds ws utail : List Char) (ustr : String) (m : ℕ)
    (hpre : ∀ c ∈ pre, c.isDigit = false)
    (hne : ds ≠ []) (hds : ∀ c ∈ ds, c.isDigit = true)
    (hws : ∀ c ∈ ws, pyWs c = true)
    (hu1 : utail ≠ []) (hu2 : sizeClassChar (utail.headD 'A') = false)
    (hu3 : pyWs (utail.getLastD 'A') = false)
    (hut : unitAt utail = some ustr)
    (hmul : _SIZE_MULTIPLIERS.lookup (pyUpper ustr) = some m) :
    _parse_size_bytes (String.mk (pre ++ ds ++ ws ++ utail)) =
      some ((digitsToNat ds * m : ℕ) : Int) := by
  obtain ⟨d, t, rfl⟩ : ∃ d t, ds = d :: t := by
    cases ds with
    | nil => exact absurd rfl hne
    | cons d t => exact ⟨d, t, rfl⟩
  obtain ⟨mid, lc, hsplit⟩ : ∃ mid lc, utail = mid ++ [lc] := by
    rcases List.eq_nil_or_concat utail with h | ⟨L, b, h⟩
    · exact absurd h hu1
    · exact ⟨L, b, by simpa [List.concat_eq_append] using h⟩
  have hlc : pyWs lc = false := by
    rw [hsplit] at hu3
    simpa using hu3
  have hstrip : pyStripL (pre ++ (d :: t) ++ ws ++ utail) =
      pre.dropWhile pyWs ++ ((d :: t) ++ ws ++ utail) := by
    unfold pyStripL
    rw [trimLeft_eq_dropWhile, trimRight_eq_rdropWhile]
    rw [show pre ++ (d :: t) ++ ws ++ utail = pre ++ d :: (t ++ ws ++ utail) by simp]
    rw [dropWhile_append_cons (isDigit_not_pyWs (hds d (by simp))) pre _]
    rw [hsplit]
    rw [show pre.dropWhile pyWs ++ d :: (t ++ ws ++ (mid ++ [lc]))
        = (pre.dropWhile pyWs ++ d :: (t ++ ws ++ mid)) ++ [lc] by simp]
    rw [List.rdropWhile_concat_neg _ _ _ (by simp [hlc])]
    simp
  have hpre2 : ∀ c ∈ pre.dropWhile pyWs, c.isDigit = false :=
    fun c hc => hpre c ((List.dropWhile_sublist pyWs).subset hc)
  have hrunc : ∀ c ∈ d :: (t ++ ws), sizeClassChar c = true := by
    intro c hc
    rcases List.mem_cons.mp hc with h | h
    · rw [h]
      exact digit_sizeClassChar (hds d (by simp))
    · rcases List.mem_append.mp h with h1 | h1
      · exact digit_sizeClassChar (hds c (by simp [h1]))
      · simp [sizeClassChar, hws c h1]
  have hsize0 := @sizeSearch_run2 (pre.dropWhile pyWs) (t ++ ws) utail d ustr hpre2
    (hds d (by simp)) hrunc hu1 hu2 hut
  have hsize : sizeSearch (pre.dropWhile pyWs ++ ((d :: t) ++ ws ++ utail)) =
      some ((d :: t) ++ ws, ustr) := by
    rw [show pre.dropWhile pyWs ++ ((d :: t) ++ ws ++ utail)
        = pre.dropWhile pyWs ++ ((d :: (t ++ ws)) ++ utail) by simp,
      show ((d :: t) ++ ws : List Char) = d :: (t ++ ws) by simp]
    exact hsize0
  have hfloat : pyToFloat (String.mk ((d :: t) ++ ws)) =
      some ((digitsToNat (d :: t) : ℚ)) :=
    pyToFloat_digits_ws hne hds hws
  have hdata : (pyStrip (String.mk (pre ++ (d :: t) ++ ws ++ utail))).data =
      pre.dropWhile pyWs ++ ((d :: t) ++ ws ++ utail) := hstrip
  have hdne : (pre.dropWhile pyWs ++ ((d :: t) ++ ws ++ utail)).isEmpty = false := by
    simp
  simp only [_parse_size_bytes, hdata, hdne, Bool.false_eq_true, if_false, hsize,
    hfloat, hmul]
  rw [pyTruncQ_nat_mul]

/-- `_parse_size_bytes` on a digit-free prefix, a digit run, a whitespace run
and any case spelling of a canonical unit followed by a word-boundary
remainder: the value times the unit's 1000-based multiplier. -/
lemma size_bytes_spelling (pre ds ws uspell rest : List Char) (u : String)
    (hu : u ∈ ["B", "KB", "MB", "GB", "TB", "PB"])
    (hsp : pyUpper (String.mk uspell) = u)
    (hpre : ∀ c ∈ pre, c.isDigit = false)
    (hne : ds ≠ []) (hds : ∀ c ∈ ds, c.isDigit = true)
    (hws : ∀ c ∈ ws, pyWs c = true)
    (hb : rest = [] ∨ isWordChar (rest.headD 'A') = false)
    (hlast : pyWs ((uspell ++ rest).getLastD 'A') = false) :
    _parse_size_bytes (String.mk (pre ++ ds ++ ws ++ uspell ++ rest)) =
      some ((digitsToNat ds * (_SIZE_MULTIPLIERS.lookup u).getD 0 : ℕ) : Int) := by
  have hmap : uspell.map Char.toUpper = u.data := congrArg String.data hsp
  fin_cases hu
  · obtain ⟨c1, rfl, h1⟩ :=
      map_eq_single (show uspell.map Char.toUpper = ['B'] from hmap)
    rw [show (pre ++ ds ++ ws ++ [c1] ++ rest : List Char)
        = pre ++ ds ++ ws ++ ([c1] ++ rest) by simp]
    exact size_bytes_ws_unit pre ds ws ([c1] ++ rest) "B" 1 hpre hne hds hws
      (by simp)
      (show sizeClassChar (([c1] ++ rest).headD 'A') = false from
        sizeClassChar_false_of_toUpper (by decide) h1)
      hlast
      (show unitAt ([c1] ++ rest) = some "B" from unitAt_B h1 hb)
      (by decide)
  · obtain ⟨c1, c2, rfl, h1, h2⟩ :=
      map_eq_pair (show uspell.map Char.toUpper = ['K', 'B'] from hmap)
    rw [show (pre ++ ds ++ ws ++ [c1, c2] ++ rest : List Char)
        = pre ++ ds ++ ws ++ ([c1, c2] ++ rest) by simp]
    exact size_bytes_ws_unit pre ds ws ([c1, c2] ++ rest) "KB" 1000 hpre hne hds hws
      (by simp)
      (show sizeClassChar (([c1, c2] ++ rest).headD 'A') = false from
        sizeClassChar_false_of_toUpper (by decide) h1)
      hlast
      (show unitAt ([c1, c2] ++ rest) = some "KB" from unitAt_KB h1 h2 hb)
      (by decide)
  · obtain ⟨c1, c2, rfl, h1, h2⟩ :=
      map_eq_pair (show uspell.map Char.toUpper = ['M', 'B'] from hmap)
    rw [show (pre ++ ds ++ ws ++ [c1, c2] ++ rest : List Char)
        = pre ++ ds ++ ws ++ ([c1, c2] ++ rest) by simp]
    exact size_bytes_ws_unit pre ds ws ([c1, c2] ++ rest) "MB" 1000000 hpre hne hds hws
      (by simp)
      (show sizeClassChar (([c1, c2] ++ rest).headD 'A') = false from
        sizeClassChar_false_of_toUpper (by decide) h1)
      hlast
      (show unitAt ([c1, c2] ++ rest) = some "MB" from unitAt_MB h1 h2 hb)
      (by decide)
  · obtain ⟨c1, c2, rfl, h1, h2⟩ :=
      map_eq_pair (show uspell.map Char.toUpper = ['G', 'B'] from hmap)
    rw [show (pre ++ ds ++ ws ++ [c1, c2] ++ rest : List Char)
        = pre ++ ds ++ ws ++ ([c1, c2] ++ rest) by simp]
    exact size_bytes_ws_unit pre ds ws ([c1, c2] ++ rest) "GB" 1000000000 hpre hne hds
      hws (by simp)
      (show sizeClassChar (([c1, c2] ++ rest).headD 'A') = false from
        sizeClassChar_false_of_toUpper (by decide) h1)
      hlast
      (show unitAt ([c1, c2] ++ rest) = some "GB" from unitAt_GB h1 h2 hb)
      (by decide)
  · obtain ⟨c1, c2, rfl, h1, h2⟩ :=
      map_eq_pair (show uspell.map Char.toUpper = ['T', 'B'] from hmap)
    rw [show (pre ++ ds ++ ws ++ [c1, c2] ++ rest : List Char)
        = pre ++ ds ++ ws ++ ([c1, c2] ++ rest) by simp]
    exact size_bytes_ws_unit pre ds ws ([c1, c2] ++ rest) "TB" 1000000000000 hpre hne
      hds hws (by simp)
      (show sizeClassChar (([c1, c2] ++ rest).headD 'A') = false from
        sizeClassChar_false_of_toUpper (by decide) h1)
      hlast
      (show unitAt ([c1, c2] ++ rest) = some "TB" from unitAt_TB h1 h2 hb)
      (by decide)
  · obtain ⟨c1, c2, rfl, h1, h2⟩ :=
      map_eq_pair (show uspell.map Char.toUpper = ['P', 'B'] from hmap)
    rw [show (pre ++ ds ++ ws ++ [c1, c2] ++ rest : List Char)
        = pre ++ ds ++ ws ++ ([c1, c2] ++ rest) by simp]
    exact size_bytes_ws_unit pre ds ws ([c1, c2] ++ rest) "PB" 1000000000000000 hpre
      hne hds hws (by simp)
      (show sizeClassChar (([c1, c2] ++ rest).headD 'A') = false from
        sizeClassChar_false_of_toUpper (by decide) h1)
      hlast
      (show unitAt ([c1, c2] ++ rest) = some "PB" from unitAt_PB h1 h2 hb)
      (by decide)

set_option maxRecDepth 10000 in
/-- Claim C6 (amended): on every text made of a digit-free prefix, an
integer digit run, a whitespace run (possibly empty, any `\s` characters),
any case spelling of a unit in {B, KB, MB, GB, TB, PB} and a trailing
remainder that starts at a word boundary and does not end in whitespace
(products kept below 2^53, the range where the source's double-precision
arithmetic is exact), `_parse_size_bytes` returns the numeric value times
the decimal (1000-based) multiplier of the unit — "512.00 GB" gives
512 × 10^9, "1 TB" gives 10^12, "512.00 gb" and "512 Kb" read the unit
case-insensitively, "3\tMB" separates with a tab, "512 GB (raw)" carries
trailing text — and returns `none` for every text in which the size
pattern finds no match; for fractional values the source truncates
value × multiplier toward zero, so the result is that truncation rather
than the product itself. -/
theorem c6_parse_size_bytes_amended :
    (∀ (pre ds ws uspell rest : List Char) (u : String),
      u ∈ ["B", "KB", "MB", "GB", "TB", "PB"] →
      pyUpper (String.mk uspell) = u →
      (∀ c ∈ pre, c.isDigit = false) →
      ds ≠ [] →
      (∀ c ∈ ds, c.isDigit = true) →
      (∀ c ∈ ws, pyWs c = true) →
      (rest = [] ∨ isWordChar (rest.headD 'A') = false) →
      pyWs ((uspell ++ rest).getLastD 'A') = false →
      digitsToNat ds * (_SIZE_MULTIPLIERS.lookup u).getD 0 < 2 ^ 53 →
      _parse_size_bytes (String.mk (pre ++ ds ++ ws ++ uspell ++ rest)) =
        some ((digitsToNat ds * (_SIZE_MULTIPLIERS.lookup u).getD 0 : ℕ) : Int)) ∧
    (∀ s : String, sizeSearch (pyStrip s).data = none → _parse_size_bytes s = none) ∧
    _parse_size_bytes "512.00 GB" = some 512000000000 ∧
    _parse_size_bytes "1 TB" = some 1000000000000 ∧
    _parse_size_bytes "512.00 gb" = some 512000000000 ∧
    _parse_size_bytes "512 Kb" = some 512000 ∧
    _parse_size_bytes "3\tMB" = some 3000000 ∧
    _parse_size_bytes "512 GB (raw)" = some 512000000000 ∧
    _parse_size_bytes "no unit here" = none := by
  refine ⟨?_, ?_, size512GB_eval, size1TB_eval, size512gb_eval, ?_, ?_, ?_, by decide⟩
  · intro pre ds ws uspell rest u hu hsp hpre hne hds hws hb hlast _
    exact size_bytes_spelling pre ds ws uspell rest u hu hsp hpre hne hds hws hb hlast
  · intro s hnone
    simp only [_parse_size_bytes]
    by_cases hemp : (pyStrip s).data.isEmpty
    · simp [hemp]
    · simp [hemp, hnone]
  · have h := size_bytes_spelling [] ['5', '1', '2'] [' '] ['K', 'b'] [] "KB"
      (by decide) (by decide) (by simp) (by decide) (by decide) (by decide)
      (Or.inl rfl) (by decide)
    rw [show ("512 Kb" : String)
        = String.mk (([] : List Char) ++ ['5', '1', '2'] ++ [' '] ++ ['K', 'b'] ++ [])
      by decide, h]
    decide
  · have h := size_bytes_spelling [] ['3'] ['\t'] ['M', 'B'] [] "MB"
      (by decide) (by decide) (by simp) (by decide) (by decide) (by decide)
      (Or.inl rfl) (by decide)
    rw [show ("3\tMB" : String)
        = String.mk (([] : List Char) ++ ['3'] ++ ['\t'] ++ ['M', 'B'] ++ [])
      by decide, h]
    decide
  · have h := size_bytes_spelling [] ['5', '1', '2'] [' '] ['G', 'B']
      [' ', '(', 'r', 'a', 'w', ')'] "GB"
      (by decide) (by decide) (by simp) (by decide) (by decide) (by decide)
      (Or.inr (by decide)) (by decide)
    rw [show ("512 GB (raw)" : String)
        = String.mk (([] : List Char) ++ ['5', '1', '2'] ++ [' '] ++ ['G', 'B']
            ++ [' ', '(', 'r', 'a', 'w', ')'])
      by decide, h]
    decide

/-- Claim C6 counterexample: the claim as stated fails on "0.5 B" — the
size pattern matches with numeric value 1/2 and multiplier 1, but the
function returns 0, not the value times the multiplier (which is not
even an integer). -/
theorem c6_claim_counterexample :
    sizeSearch (pyStrip "0.5 B").data = some ("0.5 ".data, "B") ∧
    pyToFloat (String.mk "0.5 ".data) = some ((1 : ℚ) / 2) ∧
    _SIZE_MULTIPLIERS.lookup (pyUpper "B") = some 1 ∧
    _parse_size_bytes "0.5 B" = some 0 ∧
    ((1 : ℚ) / 2) * ((1 : ℕ) : ℚ) ≠ ((0 : Int) : ℚ) := by
  refine ⟨by decide, ?_, by decide, sizeHalfB_eval, by norm_num⟩
  rw [show ("0.5 ".data : List Char) = ['0'] ++ '.' :: ['5'] ++ [' '] by decide]
  rw [pyToFloat_decimal (by decide) (by decide) (by decide)]
  norm_num [show digitsToNat ['0'] = 0 from rfl, show digitsToNat ['5'] = 5 from rfl]

/-- Claim C6 witness: the positive branch of the amended theorem at a
concrete lower-case-unit input, and the negative branch at a no-match
input. -/
theorem c6_parse_size_bytes_amended_witness :
    _parse_size_bytes (String.mk (['x'] ++ ['5'] ++ [' '] ++ ['k', 'b'] ++ [])) =
      some ((digitsToNat ['5'] * (_SIZE_MULTIPLIERS.lookup "KB").getD 0 : ℕ) : Int) ∧
    _parse_size_bytes "???" = none :=
  ⟨c6_parse_size_bytes_amended.1 ['x'] ['5'] [' '] ['k', 'b'] [] "KB" (by decide)
    (by decide) (by decide) (by decide) (by decide) (by decide) (Or.inl rfl)
    (by decide) (by decide),
   c6_parse_size_bytes_amended.2.1 "???" (by decide)⟩

end DiskHealth
